import Mathlib

/-!
# Todo API (`server.js`): a shallow embedding and its contract

The program is an Express application with five routes over one SQLite table

    CREATE TABLE IF NOT EXISTS todos (
      id INTEGER PRIMARY KEY AUTOINCREMENT,
      todo TEXT NOT NULL,
      completed BOOLEAN NOT NULL DEFAULT 0,
      userId INTEGER NOT NULL DEFAULT 1 );

Each route handler of `server.js` becomes a function from the table state and
the request (path identifier, parsed JSON body) to the new table state and the
response (status code and the JavaScript value handed to `res.json`).

The handlers call into the database through `db.all`, `db.get` and `db.run`
with five fixed SQL statements.  Their meaning is given here on an explicit
table state: a list of rows plus the `sqlite_sequence` counter that
`AUTOINCREMENT` maintains.  Values are modelled at two levels, as in the
running program: JavaScript values (request bodies, responses) and SQLite
storage classes (what a column holds).  The driver's parameter binding and the
column affinities of the schema connect the two.

Idealisations, all on the side of the database and the runtime:
* a JavaScript number is a rational, an infinity or NaN; the integers that
  the model itself turns into numbers exactly are the row ids read back from
  the table and the integers of magnitude at most `2^53`;
* whatever depends on rounding to an IEEE double or on a rendering is left to
  the parameter `Engine`: the double SQLite reads from a text with a fraction
  part or an exponent, the number JavaScript gives an integer above `2^53`,
  the text form SQLite gives a REAL value, and the text the driver binds for
  a JavaScript object or array;
* the database handle is open and the file system does not fail: the only
  statement failures are constraint and row-id failures.
-/

namespace TodoApi

/-! ## JavaScript values -/

/-- A JavaScript number: a finite value, an infinity, or NaN. -/
inductive JsNum where
  | fin (q : ℚ)
  | inf (neg : Bool)
  | nan
  deriving DecidableEq

/-- A JavaScript value as it occurs in a parsed JSON body or in the argument of
`res.json`.  An object is the list of its own properties. -/
inductive JsVal where
  | undefined
  | null
  | bool (b : Bool)
  | num (x : JsNum)
  | str (s : String)
  | arr (items : List JsVal)
  | obj (props : List (String × JsVal))

/-- The result of the `typeof` operator on the values above. -/
inductive JsType where
  | undefined
  | object
  | boolean
  | number
  | string
  deriving DecidableEq

namespace JsVal

/-- The integer `z` as a JavaScript number. -/
def ofInt (z : Int) : JsVal := num (JsNum.fin (z : ℚ))

/-- JavaScript `typeof v`. -/
def typeof : JsVal → JsType
  | undefined => JsType.undefined
  | null => JsType.object
  | bool _ => JsType.boolean
  | num _ => JsType.number
  | str _ => JsType.string
  | arr _ => JsType.object
  | obj _ => JsType.object

/-- JavaScript `ToBoolean`: `undefined`, `null`, `false`, `0`, `NaN` and the
empty string are falsy, everything else is truthy. -/
def truthy : JsVal → Bool
  | undefined => false
  | null => false
  | bool b => b
  | num (JsNum.fin q) => decide (q ≠ 0)
  | num (JsNum.inf _) => true
  | num JsNum.nan => false
  | str s => decide (s ≠ "")
  | arr _ => true
  | obj _ => true

/-- The test `v === undefined`. -/
def isUndefined : JsVal → Bool
  | undefined => true
  | _ => false

end JsVal

/-- The body `express.json()` hands to a handler: in its default strict mode a
parsed JSON object or a parsed JSON array (and the empty object when the
request carries no JSON). -/
inductive ReqBody where
  | object (props : List (String × JsVal))
  | array (items : List JsVal)

/-- The value a destructuring pattern reads for property `k` of the body: the
own property of an object, `undefined` when there is none; an array has none
of the names the handlers read. -/
def ReqBody.prop : ReqBody → String → JsVal
  | ReqBody.object props, k => (props.lookup k).getD JsVal.undefined
  | ReqBody.array _, _ => JsVal.undefined

/-- A destructuring default `{ k = d }`: the default applies exactly when the
property reads as `undefined`. -/
def ReqBody.propOr (body : ReqBody) (k : String) (d : JsVal) : JsVal :=
  if (body.prop k).isUndefined then d else body.prop k

/-! ## What is left to the engine -/

/-- The conversions the model leaves to the database engine, its driver and the
JavaScript runtime:
* `realText`: the text SQLite produces for a REAL value stored in a TEXT column;
* `objectText`: the text the driver binds for a JavaScript object or array;
* `atof`: the double SQLite reads (`sqlite3AtoF`) from a text that is a
  well-formed numeric literal, used where the literal is not an integer that
  fits 64 bits;
* `roundInt`: the Number value JavaScript gives a mathematical integer of
  magnitude above `2^53`. -/
structure Engine where
  realText : JsNum → String
  objectText : JsVal → String
  atof : String → JsNum
  roundInt : Int → JsNum

/-! ## Text to number conversions -/

/-- Value of a run of decimal digits, most significant first. -/
def digitsVal (ds : List Char) : Nat :=
  ds.foldl (fun a c => 10 * a + (c.toNat - 48)) 0

/-- SQLite's `sqlite3Isspace`: space, tab, line feed, vertical tab, form feed,
carriage return. -/
def sqliteIsspace (c : Char) : Bool :=
  decide (c.toNat = 32) || (decide (9 ≤ c.toNat) && decide (c.toNat ≤ 13))

/-- Splits an optional sign off the front: `(negative, rest)`. -/
def takeSign : List Char → Bool × List Char
  | '-' :: r => (true, r)
  | '+' :: r => (false, r)
  | cs => (false, cs)

/-- The optional exponent part of a numeric literal, `e` or `E`, an optional
sign and at least one digit: `some (present, rest)`, or `none` when an
exponent marker is not followed by a digit. -/
def takeExponent (cs : List Char) : Option (Bool × List Char) :=
  match cs with
  | [] => some (false, [])
  | c :: r =>
    if c = 'e' ∨ c = 'E' then
      if (takeSign r).2.takeWhile Char.isDigit = [] then none
      else some (true, (takeSign r).2.dropWhile Char.isDigit)
    else some (false, c :: r)

/-- What SQLite finds in a text that is a well-formed numeric literal: a pure
integer literal (no fraction part, no exponent) with its exact value, or a
literal with a fraction part or an exponent. -/
inductive NumText where
  | integer (z : Int)
  | real
  deriving DecidableEq

/-- The literal SQLite recognises in a text when it applies NUMERIC affinity to
it (`sqlite3AtoF` accepting the whole text): optional white space, an optional
sign, digits with an optional fraction part (at least one digit in all), an
optional exponent, optional white space, and nothing else.  `none` when the
text is not a well-formed integer or real literal (hexadecimal literals are
not), in which case the value stays a text. -/
def sqliteNumericText (cs : List Char) : Option NumText :=
  let sr := takeSign (cs.dropWhile sqliteIsspace)
  let ip := sr.2.takeWhile Char.isDigit
  let r1 := sr.2.dropWhile Char.isDigit
  let point := match r1 with
    | '.' :: _ => true
    | _ => false
  let fp := match r1 with
    | '.' :: r => r.takeWhile Char.isDigit
    | _ => []
  let r2 := match r1 with
    | '.' :: r => r.dropWhile Char.isDigit
    | _ => r1
  if ip.length + fp.length = 0 then none
  else
    match takeExponent r2 with
    | none => none
    | some (e, r3) =>
      if r3.dropWhile sqliteIsspace = [] then
        if point || e then some NumText.real
        else some (NumText.integer (if sr.1 then -(digitsVal ip : Int) else (digitsVal ip : Int)))
      else none

/-- ECMAScript `StrWhiteSpaceChar`: white space and line terminators. -/
def isStrWhiteSpaceChar (c : Char) : Bool :=
  [9, 10, 11, 12, 13, 32, 160, 5760, 8232, 8233, 8239, 8287, 12288, 65279].contains c.toNat
    || (decide (8192 ≤ c.toNat) && decide (c.toNat ≤ 8202))

/-- Value of a hexadecimal digit. -/
def hexVal (c : Char) : Nat :=
  if c.isDigit then c.toNat - 48
  else if decide (97 ≤ c.toNat) && decide (c.toNat ≤ 102) then c.toNat - 87
  else c.toNat - 55

/-- Whether `c` is a hexadecimal digit. -/
def isHexDigit (c : Char) : Bool :=
  c.isDigit || (decide (97 ≤ c.toNat) && decide (c.toNat ≤ 102))
    || (decide (65 ≤ c.toNat) && decide (c.toNat ≤ 70))

/-- The Number value of a mathematical integer: the integer itself when its
magnitude is at most `2^53` (every such integer is a double), the engine's
rounding otherwise. -/
def numberOfInt (E : Engine) (z : Int) : JsNum :=
  if -9007199254740992 ≤ z ∧ z ≤ 9007199254740992 then JsNum.fin (z : ℚ) else E.roundInt z

/-- The digits part of `parseInt`, after white space and sign: `0x` or `0X`
selects radix 16, otherwise the radix is 10; the longest run of digits of the
radix is read and the rest ignored; `NaN` when that run is empty, otherwise
the Number value of the signed integer read. -/
def parseIntDigits (E : Engine) (neg : Bool) : List Char → JsNum
  | '0' :: 'x' :: r =>
    if r.takeWhile isHexDigit = [] then JsNum.nan
    else numberOfInt E ((if neg then -1 else 1) *
      (((r.takeWhile isHexDigit).foldl (fun a c => 16 * a + hexVal c) 0 : Nat) : Int))
  | '0' :: 'X' :: r =>
    if r.takeWhile isHexDigit = [] then JsNum.nan
    else numberOfInt E ((if neg then -1 else 1) *
      (((r.takeWhile isHexDigit).foldl (fun a c => 16 * a + hexVal c) 0 : Nat) : Int))
  | cs =>
    if cs.takeWhile Char.isDigit = [] then JsNum.nan
    else numberOfInt E ((if neg then -1 else 1) * (digitsVal (cs.takeWhile Char.isDigit) : Int))

/-- JavaScript `parseInt(s)` with no radix argument: leading white space is
skipped, then an optional sign is read, then the digits. -/
def parseInt (E : Engine) (s : String) : JsNum :=
  parseIntDigits E (takeSign (s.toList.dropWhile isStrWhiteSpaceChar)).1
    (takeSign (s.toList.dropWhile isStrWhiteSpaceChar)).2

/-! ## SQLite values and the driver -/

/-- A value in one of SQLite's storage classes (BLOB omitted: no request can
produce one). -/
inductive SqlVal where
  | null
  | integer (z : Int)
  | real (x : JsNum)
  | text (s : String)
  deriving DecidableEq

/-- How the driver hands a column value of a result row to JavaScript: INTEGER
and REAL become numbers, TEXT a string, NULL `null`. -/
def SqlVal.toJs : SqlVal → JsVal
  | SqlVal.null => JsVal.null
  | SqlVal.integer z => JsVal.ofInt z
  | SqlVal.real x => JsVal.num x
  | SqlVal.text s => JsVal.str s

/-- The driver's test for binding a number as INTEGER: it is equal to its own
conversion to a signed 32-bit integer. -/
def isInt32 (q : ℚ) : Bool :=
  decide (q.den = 1) && decide (-2147483648 ≤ q.num) && decide (q.num ≤ 2147483647)

/-- The SQLite value the driver binds to a `?` for a JavaScript argument:
a string as TEXT, a number as INTEGER when it is a 32-bit integer and as REAL
otherwise (SQLite turns a NaN into NULL), a boolean as INTEGER 1 or 0, `null`
as NULL, any other object as a TEXT; `undefined` is not bound, which leaves
the parameter NULL. -/
def bindParam (E : Engine) : JsVal → SqlVal
  | JsVal.str s => SqlVal.text s
  | JsVal.num (JsNum.fin q) => if isInt32 q then SqlVal.integer q.num else SqlVal.real (JsNum.fin q)
  | JsVal.num (JsNum.inf b) => SqlVal.real (JsNum.inf b)
  | JsVal.num JsNum.nan => SqlVal.null
  | JsVal.bool b => SqlVal.integer (if b then 1 else 0)
  | JsVal.null => SqlVal.null
  | JsVal.arr items => SqlVal.text (E.objectText (JsVal.arr items))
  | JsVal.obj props => SqlVal.text (E.objectText (JsVal.obj props))
  | JsVal.undefined => SqlVal.null

/-- Largest row id of SQLite, `2^63 - 1`. -/
def MAX_ROWID : Int := 9223372036854775807

/-- TEXT affinity (column `todo TEXT`): numeric values are converted to their
text form before being stored. -/
def textAffinity (E : Engine) : SqlVal → SqlVal
  | SqlVal.integer z => SqlVal.text (toString z)
  | SqlVal.real x => SqlVal.text (E.realText x)
  | v => v

/-- A REAL under INTEGER or NUMERIC affinity: stored as INTEGER when it is an
integer strictly between the least and the greatest 64-bit integer, and as it
is otherwise. -/
def integerAffinity : JsNum → SqlVal
  | JsNum.fin q =>
    if q.den = 1 ∧ -MAX_ROWID - 1 < q.num ∧ q.num < MAX_ROWID then SqlVal.integer q.num
    else SqlVal.real (JsNum.fin q)
  | x => SqlVal.real x

/-- NUMERIC and INTEGER affinity (columns `completed BOOLEAN`, `userId
INTEGER`): a REAL that is an integer is stored as INTEGER; a text that is a
well-formed numeric literal is stored as INTEGER, exactly, when it is a pure
integer literal that fits 64 bits, and otherwise as the double read from it;
everything else is stored as it is. -/
def numericAffinity (E : Engine) : SqlVal → SqlVal
  | SqlVal.real x => integerAffinity x
  | SqlVal.text t =>
    match sqliteNumericText t.toList with
    | none => SqlVal.text t
    | some (NumText.integer z) =>
      if -MAX_ROWID - 1 ≤ z ∧ z ≤ MAX_ROWID then SqlVal.integer z
      else integerAffinity (E.atof t)
    | some NumText.real => integerAffinity (E.atof t)
  | v => v

/-- The row id a REAL denotes: itself when it is an integer. -/
def realRowid : JsNum → Option Int
  | JsNum.fin q => if q.den = 1 then some q.num else none
  | _ => none

/-- The row id a value denotes in the comparison `id = ?`: the column has
INTEGER affinity, so NUMERIC affinity is applied to the parameter, and the
comparison can only hold with a value that is then an integer.  A text that is
a pure integer literal fitting 64 bits is read exactly; any other numeric
literal is read as a double first; a text that is no numeric literal stays a
text and equals no id. -/
def rowidOf (E : Engine) : SqlVal → Option Int
  | SqlVal.integer z => some z
  | SqlVal.real x => realRowid x
  | SqlVal.text t =>
    match numericAffinity E (SqlVal.text t) with
    | SqlVal.integer z => some z
    | _ => none
  | SqlVal.null => none

/-! ## The table -/

/-- One row of the table `todos`. -/
structure Row where
  id : Int
  todo : SqlVal
  completed : SqlVal
  userId : SqlVal
  deriving DecidableEq

/-- The object the driver builds for a row of `SELECT *`. -/
def Row.toJs (r : Row) : JsVal :=
  JsVal.obj [("id", JsVal.ofInt r.id), ("todo", r.todo.toJs),
    ("completed", r.completed.toJs), ("userId", r.userId.toJs)]

/-- State of the database: the rows of `todos` and the `sqlite_sequence` entry
of the table (the largest row id `AUTOINCREMENT` has handed out, 0 when there
is no entry yet). -/
structure Store where
  rows : List Row
  seq : Nat
  deriving DecidableEq

/-- The table right after `initializeDatabase` created it. -/
def emptyStore : Store := Store.mk [] 0

/-- The PRIMARY KEY constraint: no two rows share an id. -/
def Store.wf (s : Store) : Prop := (s.rows.map Row.id).Nodup

instance (s : Store) : Decidable s.wf := by
  unfold Store.wf; infer_instance

/-- Failures of a statement. -/
inductive DbError where
  | full
  | notNull (column : String)
  deriving DecidableEq

/-- The `message` of the error the driver throws. -/
def DbError.message : DbError → String
  | DbError.full => "SQLITE_FULL: database or disk is full"
  | DbError.notNull c => "SQLITE_CONSTRAINT: NOT NULL constraint failed: todos." ++ c

/-- Whether the row is selected by `WHERE id = ?` with parameter `p`. -/
def Row.matches (E : Engine) (p : SqlVal) (r : Row) : Bool :=
  decide (rowidOf E p = some r.id)

/-- Largest id among the rows, `none` for an empty table. -/
def maxRowid : List Row → Option Int
  | [] => none
  | r :: rs =>
    match maxRowid rs with
    | none => some r.id
    | some m => some (max r.id m)

/-- The row id an `INSERT` receives under `AUTOINCREMENT`: one more than the
largest id in the table (1 for an empty table), raised to one more than the
`sqlite_sequence` entry; the insert fails with SQLITE_FULL once the largest
possible id has been used. -/
def newRowid (s : Store) : Except DbError Int :=
  match maxRowid s.rows with
  | none =>
    if MAX_ROWID ≤ (s.seq : Int) then Except.error DbError.full
    else Except.ok (max 1 ((s.seq : Int) + 1))
  | some m =>
    if MAX_ROWID ≤ m ∨ MAX_ROWID ≤ (s.seq : Int) then Except.error DbError.full
    else Except.ok (max (m + 1) ((s.seq : Int) + 1))

/-- Statement `SELECT * FROM todos ORDER BY id DESC` through `db.all`. -/
def dbAll (s : Store) : List Row :=
  s.rows.insertionSort (fun a b => b.id ≤ a.id)

/-- Statement `SELECT * FROM todos WHERE id = ?` through `db.get`: the first
row selected, `none` for JavaScript `undefined` when there is none. -/
def dbGet (E : Engine) (s : Store) (p : SqlVal) : Option Row :=
  s.rows.find? (Row.matches E p)

/-- Statement `INSERT INTO todos (todo, completed, userId) VALUES (?, ?, ?)`
through `db.run`: the new state and `lastID`.  The bound values pass through
the affinity of their column; a NULL violates NOT NULL and aborts the
statement. -/
def dbRunInsert (E : Engine) (s : Store) (todo completed userId : JsVal) :
    Except DbError (Store × Int) :=
  match newRowid s with
  | Except.error e => Except.error e
  | Except.ok id =>
    let t := textAffinity E (bindParam E todo)
    let c := numericAffinity E (bindParam E completed)
    let u := numericAffinity E (bindParam E userId)
    if t = SqlVal.null then Except.error (DbError.notNull "todo")
    else if c = SqlVal.null then Except.error (DbError.notNull "completed")
    else if u = SqlVal.null then Except.error (DbError.notNull "userId")
    else Except.ok (Store.mk (s.rows ++ [Row.mk id t c u]) id.toNat, id)

/-- Statement `UPDATE todos SET <clauses> WHERE id = ?` through `db.run`, where
the clauses are `todo = ?` and/or `completed = ?` as the handler assembled
them (a clause is present exactly when its value is `some`): every selected
row is rewritten with the bound values after column affinity; if a row is
selected and a clause would store NULL, NOT NULL aborts the statement and
nothing changes. -/
def dbRunUpdate (E : Engine) (s : Store) (todo completed : Option JsVal) (id : JsVal) :
    Except DbError Store :=
  let p := bindParam E id
  let t := todo.map (fun v => textAffinity E (bindParam E v))
  let c := completed.map (fun v => numericAffinity E (bindParam E v))
  if s.rows.any (Row.matches E p) && decide (t = some SqlVal.null) then
    Except.error (DbError.notNull "todo")
  else if s.rows.any (Row.matches E p) && decide (c = some SqlVal.null) then
    Except.error (DbError.notNull "completed")
  else Except.ok (Store.mk
    (s.rows.map (fun r =>
      if r.matches E p then Row.mk r.id (t.getD r.todo) (c.getD r.completed) r.userId else r))
    s.seq)

/-- Statement `DELETE FROM todos WHERE id = ?` through `db.run`. -/
def dbRunDelete (E : Engine) (s : Store) (id : JsVal) : Store :=
  Store.mk (s.rows.filter (fun r => !r.matches E (bindParam E id))) s.seq

/-! ## The route handlers -/

/-- What a handler sends: the status code and the value given to `res.json`. -/
structure Response where
  status : Nat
  body : JsVal

/-- The object `{ message: m }`. -/
def messageBody (m : String) : JsVal := JsVal.obj [("message", JsVal.str m)]

/-- The object `{ message: m, error: error.message }` of a 500 response. -/
def errorBody (m : String) (e : DbError) : JsVal :=
  JsVal.obj [("message", JsVal.str m), ("error", JsVal.str e.message)]

/-- The value `res.json` receives for the result of `db.get`. -/
def rowOrUndefined : Option Row → JsVal
  | some r => r.toJs
  | none => JsVal.undefined

/-- Route `GET /todos` (server.js lines 48-60). -/
def getTodos (s : Store) : Store × Response :=
  let todos := dbAll s
  (s, Response.mk 200 (JsVal.obj [
    ("todos", JsVal.arr (todos.map Row.toJs)),
    ("total", JsVal.ofInt todos.length),
    ("skip", JsVal.ofInt 0),
    ("limit", JsVal.ofInt todos.length)]))

/-- Route `GET /todos/:id` (server.js lines 63-75); `id` is `req.params.id`. -/
def getTodoById (E : Engine) (s : Store) (id : String) : Store × Response :=
  match dbGet E s (bindParam E (JsVal.str id)) with
  | some todo => (s, Response.mk 200 todo.toJs)
  | none => (s, Response.mk 404 (messageBody ("Todo with id " ++ id ++ " not found.")))

/-- Route `POST /todos/add` (server.js lines 78-99). -/
def postTodosAdd (E : Engine) (s : Store) (body : ReqBody) : Store × Response :=
  let todo := body.prop "todo"
  let completed := body.propOr "completed" (JsVal.bool false)
  let userId := body.propOr "userId" (JsVal.ofInt 1)
  if !todo.truthy || decide (completed.typeof ≠ JsType.boolean)
      || decide (userId.typeof ≠ JsType.number) then
    (s, Response.mk 400 (messageBody "Invalid data provided."))
  else
    match dbRunInsert E s todo (JsVal.bool completed.truthy) userId with
    | Except.error e => (s, Response.mk 500 (errorBody "Failed to create todo." e))
    | Except.ok (s1, lastID) =>
      (s1, Response.mk 200 (rowOrUndefined (dbGet E s1 (bindParam E (JsVal.ofInt lastID)))))

/-- Route `PUT /todos/:id` (server.js lines 102-138).  The lists `updates` and
`params` of the source are kept as the two optional `SET` values: `todo` is
pushed when it is not `undefined`, `completed ? true : false` when `completed`
is not `undefined`, and `updates.length === 0` when neither is. -/
def putTodoById (E : Engine) (s : Store) (id : String) (body : ReqBody) : Store × Response :=
  let todo := body.prop "todo"
  let completed := body.prop "completed"
  let setTodo := if todo.isUndefined then none else some todo
  let setCompleted := if completed.isUndefined then none else some (JsVal.bool completed.truthy)
  if setTodo.isNone && setCompleted.isNone then
    (s, Response.mk 400 (messageBody "No fields to update provided."))
  else
    match dbRunUpdate E s setTodo setCompleted (JsVal.str id) with
    | Except.error e => (s, Response.mk 500 (errorBody ("Failed to update todo " ++ id ++ ".") e))
    | Except.ok s1 =>
      (s1, Response.mk 200 (rowOrUndefined (dbGet E s1 (bindParam E (JsVal.str id)))))

/-- Route `DELETE /todos/:id` (server.js lines 141-151). -/
def deleteTodoById (E : Engine) (s : Store) (id : String) : Store × Response :=
  (dbRunDelete E s (JsVal.str id),
    Response.mk 200 (JsVal.obj [("id", JsVal.num (parseInt E id)), ("isDeleted", JsVal.bool true)]))

/-! ## Sequences of requests -/

/-- A request to one of the five routes. -/
inductive Request where
  | list
  | getOne (id : String)
  | create (body : ReqBody)
  | update (id : String) (body : ReqBody)
  | delete (id : String)

/-- Dispatch of a request to its handler. -/
def handle (E : Engine) (s : Store) : Request → Store × Response
  | Request.list => getTodos s
  | Request.getOne id => getTodoById E s id
  | Request.create body => postTodosAdd E s body
  | Request.update id body => putTodoById E s id body
  | Request.delete id => deleteTodoById E s id

/-- The responses to a sequence of requests served one after the other, each
paired with its request. -/
def serve (E : Engine) : Store → List Request → List (Request × Response)
  | _, [] => []
  | s, q :: qs => (q, (handle E s q).2) :: serve E (handle E s q).1 qs

/-- The table after a sequence of requests. -/
def finalStore (E : Engine) : Store → List Request → Store
  | s, [] => s
  | s, q :: qs => finalStore E (handle E s q).1 qs

/-- The `id` property of a response body when it is an integer. -/
def bodyId : JsVal → Option Int
  | JsVal.obj props =>
    match props.lookup "id" with
    | some (JsVal.num (JsNum.fin q)) => if q.den = 1 then some q.num else none
    | _ => none
  | _ => none

/-- The ids returned by the successful creates of a served sequence, in the
order of the requests. -/
def createdIds : List (Request × Response) → List Int
  | [] => []
  | (Request.create _, r) :: rest =>
    if r.status = 200 then
      match bodyId r.body with
      | some z => z :: createdIds rest
      | none => createdIds rest
    else createdIds rest
  | _ :: rest => createdIds rest

/-- An engine with constant conversions, for evaluating the handlers on
requests whose values are strings, booleans and 32-bit integers and whose path
identifiers are short integer texts (none of which reaches a conversion). -/
def constEngine : Engine :=
  Engine.mk (fun _ => "") (fun _ => "") (fun _ => JsNum.nan) (fun _ => JsNum.nan)

/-! ## Decimal texts -/

theorem digitChar_spec (k : Nat) (h : k < 10) :
    (Nat.digitChar k).isDigit = true ∧ (Nat.digitChar k).toNat - 48 = k := by
  interval_cases k <;> decide

theorem digitsVal_snoc (l : List Char) (c : Char) :
    digitsVal (l ++ [c]) = 10 * digitsVal l + (c.toNat - 48) := by
  simp [digitsVal, List.foldl_append]

theorem toDigitsCore_spec (fuel : Nat) : ∀ (n : Nat) (ds : List Char), n < fuel →
    ∃ l, Nat.toDigitsCore 10 fuel n ds = l ++ ds ∧ l ≠ [] ∧
      (∀ c ∈ l, c.isDigit = true) ∧ digitsVal l = n := by
  induction fuel with
  | zero => intro n ds h; omega
  | succ fuel ih =>
    intro n ds h
    rw [Nat.toDigitsCore]
    by_cases h0 : n / 10 = 0
    · refine ⟨[Nat.digitChar (n % 10)], by simp [h0], by simp, ?_, ?_⟩
      · intro c hc
        simp only [List.mem_singleton] at hc
        rw [hc]
        exact (digitChar_spec _ (Nat.mod_lt _ (by decide))).1
      · have := (digitChar_spec (n % 10) (Nat.mod_lt _ (by decide))).2
        simp only [digitsVal, List.foldl_cons, List.foldl_nil, this]
        omega
    · obtain ⟨l, hl, hne, hdig, hval⟩ := ih (n / 10) (Nat.digitChar (n % 10) :: ds) (by omega)
      refine ⟨l ++ [Nat.digitChar (n % 10)], by simp [h0, hl], by simp, ?_, ?_⟩
      · intro c hc
        rcases List.mem_append.1 hc with hc | hc
        · exact hdig c hc
        · simp only [List.mem_singleton] at hc
          rw [hc]
          exact (digitChar_spec _ (Nat.mod_lt _ (by decide))).1
      · rw [digitsVal_snoc, hval, (digitChar_spec (n % 10) (Nat.mod_lt _ (by decide))).2]
        omega

theorem toDigits_spec (n : Nat) :
    Nat.toDigits 10 n ≠ [] ∧ (∀ c ∈ Nat.toDigits 10 n, c.isDigit = true) ∧
      digitsVal (Nat.toDigits 10 n) = n := by
  obtain ⟨l, hl, hne, hdig, hval⟩ := toDigitsCore_spec (n + 1) n [] (by omega)
  rw [List.append_nil] at hl
  rw [Nat.toDigits, hl]
  exact ⟨hne, hdig, hval⟩

theorem isDigit_bounds (c : Char) (h : c.isDigit = true) : 48 ≤ c.toNat ∧ c.toNat ≤ 57 := by
  simp only [Char.isDigit, Bool.and_eq_true, decide_eq_true_eq] at h
  exact h


theorem takeSign_digit (c : Char) (t : List Char) (h : c.isDigit = true) :
    takeSign (c :: t) = (false, c :: t) := by
  have hb := isDigit_bounds c h
  unfold takeSign
  split
  · rename_i heq
    simp only [List.cons.injEq] at heq
    rw [heq.1] at hb
    exact absurd hb (by decide)
  · rename_i heq
    simp only [List.cons.injEq] at heq
    rw [heq.1] at hb
    exact absurd hb (by decide)
  · rfl

theorem takeWhile_all {p : Char → Bool} {l : List Char} (h : ∀ c ∈ l, p c = true) :
    l.takeWhile p = l := List.takeWhile_eq_self_iff.2 h

theorem dropWhile_all {p : Char → Bool} {l : List Char} (h : ∀ c ∈ l, p c = true) :
    l.dropWhile p = [] := List.dropWhile_eq_nil_iff.2 h

theorem sqliteIsspace_digit (c : Char) (h : c.isDigit = true) : sqliteIsspace c = false := by
  have hb := isDigit_bounds c h
  simp only [sqliteIsspace, Bool.or_eq_false_iff, Bool.and_eq_false_iff, decide_eq_false_iff_not]
  omega

theorem numericText_unsigned (l : List Char) (hne : l ≠ []) (hd : ∀ c ∈ l, c.isDigit = true) :
    sqliteNumericText l = some (NumText.integer (digitsVal l : Int)) := by
  obtain ⟨c, t, rfl⟩ := List.exists_cons_of_ne_nil hne
  have hc : c.isDigit = true := hd c (List.mem_cons_self _ _)
  simp only [sqliteNumericText]
  rw [List.dropWhile_cons_of_neg (by simp [sqliteIsspace_digit c hc]), takeSign_digit c t hc]
  simp only [takeWhile_all hd, dropWhile_all hd, takeExponent]
  simp

theorem numericText_negative (l : List Char) (hne : l ≠ []) (hd : ∀ c ∈ l, c.isDigit = true) :
    sqliteNumericText ('-' :: l) = some (NumText.integer (-(digitsVal l : Int))) := by
  simp only [sqliteNumericText]
  rw [List.dropWhile_cons_of_neg (by decide)]
  simp only [takeSign, takeWhile_all hd, dropWhile_all hd, takeExponent]
  simp [hne]

/-- The decimal form of an integer is a pure integer literal with that value. -/
theorem numericText_toString (z : Int) :
    sqliteNumericText (toString z).toList = some (NumText.integer z) := by
  cases z with
  | ofNat n =>
    obtain ⟨hne, hd, hv⟩ := toDigits_spec n
    show sqliteNumericText (Nat.toDigits 10 n) = some (NumText.integer (Int.ofNat n))
    rw [numericText_unsigned _ hne hd, hv]
    rfl
  | negSucc n =>
    obtain ⟨hne, hd, hv⟩ := toDigits_spec (n + 1)
    show sqliteNumericText ('-' :: Nat.toDigits 10 (n + 1)) = some (NumText.integer (Int.negSucc n))
    rw [numericText_negative _ hne hd, hv]
    rfl

theorem rowidOf_text_toString (E : Engine) (z : Int)
    (hz : -MAX_ROWID - 1 ≤ z ∧ z ≤ MAX_ROWID) :
    rowidOf E (SqlVal.text (toString z)) = some z := by
  simp only [rowidOf, numericAffinity, numericText_toString, if_pos hz]

theorem isStrWhiteSpaceChar_digit (c : Char) (h : c.isDigit = true) :
    isStrWhiteSpaceChar c = false := by
  have hb := isDigit_bounds c h
  simp only [isStrWhiteSpaceChar, Bool.or_eq_false_iff, Bool.and_eq_false_iff,
    decide_eq_false_iff_not, List.contains_eq_any_beq, List.any_cons, List.any_nil,
    Bool.or_false, beq_eq_false_iff_ne, ne_eq]
  omega

theorem parseIntDigits_decimal (E : Engine) (neg : Bool) (l : List Char) (hne : l ≠ [])
    (hd : ∀ c ∈ l, c.isDigit = true) :
    parseIntDigits E neg l = numberOfInt E ((if neg then -1 else 1) * (digitsVal l : Int)) := by
  unfold parseIntDigits
  split
  · exact absurd (hd 'x' (by simp)) (by decide)
  · exact absurd (hd 'X' (by simp)) (by decide)
  · rw [takeWhile_all hd, if_neg hne]

/-- On the decimal form of an integer, `parseInt` is the Number value of that
integer. -/
theorem parseInt_toString (E : Engine) (z : Int) :
    parseInt E (toString z) = numberOfInt E z := by
  cases z with
  | ofNat n =>
    obtain ⟨hne, hd, hv⟩ := toDigits_spec n
    obtain ⟨c, t, hct⟩ := List.exists_cons_of_ne_nil hne
    have hc : c.isDigit = true := hd c (by rw [hct]; exact List.mem_cons_self _ _)
    have h1 : (toString (Int.ofNat n)).toList = c :: t := hct
    unfold parseInt
    rw [h1, List.dropWhile_cons_of_neg (by simp [isStrWhiteSpaceChar_digit c hc]),
      takeSign_digit c t hc, ← hct, parseIntDigits_decimal E false _ hne hd, hv]
    simp
  | negSucc n =>
    obtain ⟨hne, hd, hv⟩ := toDigits_spec (n + 1)
    have h1 : (toString (Int.negSucc n)).toList = '-' :: Nat.toDigits 10 (n + 1) := rfl
    unfold parseInt
    rw [h1, List.dropWhile_cons_of_neg (by decide)]
    simp only [takeSign]
    rw [parseIntDigits_decimal E true _ hne hd, hv]
    simp [Int.negSucc_eq]

/-- On the decimal form of an integer of magnitude at most `2^53`, `parseInt`
is that integer. -/
theorem parseInt_toString_exact (E : Engine) (z : Int)
    (hz : -9007199254740992 ≤ z ∧ z ≤ 9007199254740992) :
    parseInt E (toString z) = JsNum.fin (z : ℚ) := by
  rw [parseInt_toString, numberOfInt, if_pos hz]

/-- An identifier that is empty or starts with a character that is neither
white space, a sign nor a digit has no integer to parse. -/
theorem parseInt_nan (E : Engine) (id : String)
    (h : ∀ c ∈ id.toList.head?, isStrWhiteSpaceChar c = false ∧ c ≠ '-' ∧ c ≠ '+'
      ∧ c.isDigit = false) :
    parseInt E id = JsNum.nan := by
  unfold parseInt
  cases hl : id.toList with
  | nil => rfl
  | cons c t =>
    rw [hl] at h
    obtain ⟨hw, hm, hp, hd⟩ := h c (by simp)
    rw [List.dropWhile_cons_of_neg (by simp [hw])]
    have hs : takeSign (c :: t) = (false, c :: t) := by
      unfold takeSign
      split
      · rename_i heq
        simp only [List.cons.injEq] at heq
        exact absurd heq.1 hm
      · rename_i heq
        simp only [List.cons.injEq] at heq
        exact absurd heq.1 hp
      · rfl
    rw [hs]
    unfold parseIntDigits
    split
    · rename_i heq
      simp only [List.cons.injEq] at heq
      rw [heq.1] at hd
      exact absurd hd (by decide)
    · rename_i heq
      simp only [List.cons.injEq] at heq
      rw [heq.1] at hd
      exact absurd hd (by decide)
    · rw [List.takeWhile_cons_of_neg (by simp [hd])]
      rfl

/-! ## Validation of the create request -/

theorem isUndefined_truthy (v : JsVal) (h : v.isUndefined = true) : v.truthy = false := by
  cases v <;> simp_all [JsVal.isUndefined, JsVal.truthy]

theorem propOr_typeof_boolean (body : ReqBody) (k : String) :
    (body.propOr k (JsVal.bool false)).typeof ≠ JsType.boolean ↔
      ((body.prop k).isUndefined = false ∧ (body.prop k).typeof ≠ JsType.boolean) := by
  unfold ReqBody.propOr
  cases h : (body.prop k).isUndefined <;> simp [JsVal.typeof]

theorem propOr_typeof_number (body : ReqBody) (k : String) :
    (body.propOr k (JsVal.ofInt 1)).typeof ≠ JsType.number ↔
      ((body.prop k).isUndefined = false ∧ (body.prop k).typeof ≠ JsType.number) := by
  unfold ReqBody.propOr
  cases h : (body.prop k).isUndefined <;> simp [JsVal.typeof, JsVal.ofInt]

/-- The test of line 81 of server.js as a proposition. -/
theorem createRejected_iff (body : ReqBody) :
    (!(body.prop "todo").truthy
        || decide ((body.propOr "completed" (JsVal.bool false)).typeof ≠ JsType.boolean)
        || decide ((body.propOr "userId" (JsVal.ofInt 1)).typeof ≠ JsType.number)) = true ↔
      (((body.prop "todo").isUndefined = true ∨ (body.prop "todo").truthy = false)
        ∨ ((body.prop "completed").isUndefined = false
            ∧ (body.prop "completed").typeof ≠ JsType.boolean)
        ∨ ((body.prop "userId").isUndefined = false
            ∧ (body.prop "userId").typeof ≠ JsType.number)) := by
  rw [Bool.or_eq_true, Bool.or_eq_true, decide_eq_true_eq, decide_eq_true_eq,
    propOr_typeof_boolean, propOr_typeof_number, or_assoc]
  constructor
  · rintro (h | h | h)
    · exact Or.inl (Or.inr (by simpa using h))
    · exact Or.inr (Or.inl h)
    · exact Or.inr (Or.inr h)
  · rintro ((h | h) | h | h)
    · exact Or.inl (by simp [isUndefined_truthy _ h])
    · exact Or.inl (by simp [h])
    · exact Or.inr (Or.inl h)
    · exact Or.inr (Or.inr h)

/-- C1. The create operation (POST /todos/add) responds with status 400 if and
only if `todo` is missing or falsy, or `completed` is provided and is not a
boolean, or `userId` is provided and is not a number; and whenever it responds
400 the body is the message "Invalid data provided." and the store is exactly
the store before the request. -/
theorem C1_create_rejects_invalid (E : Engine) (s : Store) (body : ReqBody) :
    ((postTodosAdd E s body).2.status = 400 ↔
      (((body.prop "todo").isUndefined = true ∨ (body.prop "todo").truthy = false)
        ∨ ((body.prop "completed").isUndefined = false
            ∧ (body.prop "completed").typeof ≠ JsType.boolean)
        ∨ ((body.prop "userId").isUndefined = false
            ∧ (body.prop "userId").typeof ≠ JsType.number)))
    ∧ ((postTodosAdd E s body).2.status = 400 →
        (postTodosAdd E s body).2.body = messageBody "Invalid data provided."
          ∧ (postTodosAdd E s body).1 = s) := by
  rw [← createRejected_iff]
  unfold postTodosAdd
  simp only []
  generalize (!(body.prop "todo").truthy
        || decide ((body.propOr "completed" (JsVal.bool false)).typeof ≠ JsType.boolean)
        || decide ((body.propOr "userId" (JsVal.ofInt 1)).typeof ≠ JsType.number)) = c
  cases c
  · simp only [Bool.false_eq_true, if_false]
    split <;> simp
  · simp

/-! ## Selecting rows by id -/

theorem bindParam_str (E : Engine) (id : String) : bindParam E (JsVal.str id) = SqlVal.text id := rfl

theorem matches_iff (E : Engine) (p : SqlVal) (r : Row) :
    r.matches E p = true ↔ rowidOf E p = some r.id := by
  simp [Row.matches]

theorem matches_toString (E : Engine) (z : Int) (r : Row)
    (hz : -MAX_ROWID - 1 ≤ z ∧ z ≤ MAX_ROWID) :
    r.matches E (SqlVal.text (toString z)) = true ↔ r.id = z := by
  rw [matches_iff, rowidOf_text_toString E z hz]
  constructor
  · intro h; exact (Option.some.inj h).symm
  · intro h; rw [h]

theorem wf_unique (s : Store) (hwf : s.wf) (a b : Row) (ha : a ∈ s.rows) (hb : b ∈ s.rows)
    (h : a.id = b.id) : a = b :=
  List.inj_on_of_nodup_map hwf ha hb h

theorem dbGet_eq_none (E : Engine) (s : Store) (p : SqlVal) :
    dbGet E s p = none ↔ ∀ r ∈ s.rows, r.matches E p = false := by
  simp [dbGet, List.find?_eq_none]

theorem dbGet_mem (E : Engine) (s : Store) (p : SqlVal) (r : Row) (h : dbGet E s p = some r) :
    r ∈ s.rows ∧ r.matches E p = true :=
  ⟨List.mem_of_find?_eq_some h, List.find?_some h⟩

theorem dbGet_of_wf (E : Engine) (s : Store) (hwf : s.wf) (p : SqlVal) (r : Row)
    (hr : r ∈ s.rows) (hm : r.matches E p = true) : dbGet E s p = some r := by
  cases hg : dbGet E s p with
  | none =>
    have := (dbGet_eq_none E s p).1 hg r hr
    rw [hm] at this
    exact absurd this (by decide)
  | some r1 =>
    obtain ⟨h1, h2⟩ := dbGet_mem E s p r1 hg
    rw [matches_iff] at hm h2
    rw [wf_unique s hwf r1 r h1 hr (Option.some.inj (h2.symm.trans hm))]

/-- C7. When neither `todo` nor `completed` is present in the body, the update
operation responds with status 400 and the message "No fields to update
provided." and leaves the store exactly as it was; when at least one of the two
is present it does not respond 400. -/
theorem C7_update_requires_a_field (E : Engine) (s : Store) (id : String) (body : ReqBody) :
    (((body.prop "todo").isUndefined = true ∧ (body.prop "completed").isUndefined = true) →
      (putTodoById E s id body).2.status = 400
        ∧ (putTodoById E s id body).2.body = messageBody "No fields to update provided."
        ∧ (putTodoById E s id body).1 = s)
    ∧ (¬ ((body.prop "todo").isUndefined = true ∧ (body.prop "completed").isUndefined = true) →
      (putTodoById E s id body).2.status ≠ 400) := by
  unfold putTodoById
  simp only []
  cases h1 : (body.prop "todo").isUndefined <;> cases h2 : (body.prop "completed").isUndefined
  · simp only [Bool.false_eq_true, if_false, Option.isNone_some, Bool.and_self]
    split <;> simp
  · simp only [Bool.false_eq_true, if_false, if_true, Option.isNone_some, Bool.false_and]
    split <;> simp
  · simp only [Bool.false_eq_true, if_false, if_true, Option.isNone_some, Bool.and_false]
    split <;> simp
  · simp

/-- C8. Get-one (GET /todos/:id) responds with status 404 if and only if no
stored row matches the path identifier, and then the body is the message
"Todo with id <id> not found." with the identifier verbatim; otherwise it
responds with status 200 and the one matching row; for the identifier 9999
with no such row the message is exactly "Todo with id 9999 not found."; the
store is left unchanged.  A row matches the decimal form of an integer `n`
exactly when its id is `n`, and no row matches an identifier that is not a
numeric literal. -/
theorem C8_get_one (E : Engine) (s : Store) (id : String) (hwf : s.wf) :
    ((getTodoById E s id).2.status = 404 ↔ ∀ r ∈ s.rows, r.matches E (SqlVal.text id) = false)
    ∧ ((getTodoById E s id).2.status = 404 →
        (getTodoById E s id).2.body = messageBody ("Todo with id " ++ id ++ " not found."))
    ∧ (∀ r ∈ s.rows, r.matches E (SqlVal.text id) = true →
        (getTodoById E s id).2.status = 200 ∧ (getTodoById E s id).2.body = r.toJs)
    ∧ (getTodoById E s id).1 = s
    ∧ ((∀ r ∈ s.rows, r.id ≠ 9999) →
        (getTodoById E s "9999").2.status = 404
          ∧ (getTodoById E s "9999").2.body = messageBody "Todo with id 9999 not found.")
    ∧ (∀ z : Int, id = toString z → -MAX_ROWID - 1 ≤ z ∧ z ≤ MAX_ROWID →
        ((getTodoById E s id).2.status = 404 ↔ ∀ r ∈ s.rows, r.id ≠ z))
    ∧ (sqliteNumericText id.toList = none → (getTodoById E s id).2.status = 404) := by
  have h404 : (getTodoById E s id).2.status = 404
      ↔ ∀ r ∈ s.rows, r.matches E (SqlVal.text id) = false := by
    rw [← dbGet_eq_none]
    unfold getTodoById
    rw [bindParam_str]
    cases dbGet E s (SqlVal.text id) <;> simp
  refine ⟨?_, ?_, ?_, ?_, ?_, ?_, ?_⟩
  rotate_left 5
  · intro z hz hrange
    rw [h404, hz]
    constructor
    · intro h r hr hid
      have := h r hr
      rw [(matches_toString E z r hrange).2 hid] at this
      exact absurd this (by decide)
    · intro h r hr
      cases hm : r.matches E (SqlVal.text (toString z)) with
      | false => rfl
      | true => exact absurd ((matches_toString E z r hrange).1 hm) (h r hr)
  · intro hnum
    rw [h404]
    intro r _
    have : rowidOf E (SqlVal.text id) = none := by
      simp only [rowidOf, numericAffinity, hnum]
    simp [Row.matches, this]
  · rw [← dbGet_eq_none]
    unfold getTodoById
    rw [bindParam_str]
    cases dbGet E s (SqlVal.text id) <;> simp
  · unfold getTodoById
    cases dbGet E s (bindParam E (JsVal.str id)) <;> simp
  · intro r hr hm
    unfold getTodoById
    rw [bindParam_str, dbGet_of_wf E s hwf _ r hr hm]
    exact ⟨rfl, rfl⟩
  · unfold getTodoById
    cases dbGet E s (bindParam E (JsVal.str id)) <;> rfl
  · intro h
    have hnone : dbGet E s (SqlVal.text "9999") = none := by
      rw [dbGet_eq_none]
      intro r hr
      cases hm : r.matches E (SqlVal.text "9999") with
      | false => rfl
      | true => exact absurd ((matches_toString E 9999 r (by decide)).1 hm) (h r hr)
    unfold getTodoById
    rw [bindParam_str, hnone]
    exact ⟨rfl, rfl⟩

/-- Witness for C8: a table with rows 1 and 2 satisfies the primary key
constraint, and the conclusions of C8 hold on it for the identifier "2". -/
theorem C8_get_one_witness :
    (Store.mk [Row.mk 1 (SqlVal.text "a") (SqlVal.integer 0) (SqlVal.integer 1),
        Row.mk 2 (SqlVal.text "b") (SqlVal.integer 1) (SqlVal.integer 1)] 2).wf
    ∧ (getTodoById constEngine
        (Store.mk [Row.mk 1 (SqlVal.text "a") (SqlVal.integer 0) (SqlVal.integer 1),
          Row.mk 2 (SqlVal.text "b") (SqlVal.integer 1) (SqlVal.integer 1)] 2) "2").2.body
        = (Row.mk 2 (SqlVal.text "b") (SqlVal.integer 1) (SqlVal.integer 1)).toJs :=
  ⟨by decide,
    ((C8_get_one constEngine
      (Store.mk [Row.mk 1 (SqlVal.text "a") (SqlVal.integer 0) (SqlVal.integer 1),
        Row.mk 2 (SqlVal.text "b") (SqlVal.integer 1) (SqlVal.integer 1)] 2) "2"
      (by decide)).2.2.1 _ (by decide) (by decide)).2⟩

/-- Counterexample to C9 as stated: DELETE /todos/abc replies
`{id: NaN, isDeleted: true}`: `parseInt("abc")` is NaN, so the `id` of the
reply is not an integer parsed from the path identifier. -/
theorem C9_counterexample :
    (deleteTodoById constEngine emptyStore "abc").2.status = 200
    ∧ (deleteTodoById constEngine emptyStore "abc").2.body
      = JsVal.obj [("id", JsVal.num JsNum.nan), ("isDeleted", JsVal.bool true)]
    ∧ ¬ ∃ n : Int, (deleteTodoById constEngine emptyStore "abc").2.body
      = JsVal.obj [("id", JsVal.ofInt n), ("isDeleted", JsVal.bool true)] := by
  have h : (deleteTodoById constEngine emptyStore "abc").2.body
      = JsVal.obj [("id", JsVal.num JsNum.nan), ("isDeleted", JsVal.bool true)] := rfl
  refine ⟨rfl, h, ?_⟩
  rintro ⟨n, hn⟩
  rw [h] at hn
  simp [JsVal.ofInt] at hn

/-- C9 (amended). The delete operation (DELETE /todos/:id) responds, whether or
not a row matches the path identifier, with status 200 and the body
`{id: parseInt(id), isDeleted: true}`.  When the identifier is the decimal form
of an integer `n` of magnitude at most `2^53`, `parseInt(id)` is `n`; when the
identifier is empty or starts with a character that is neither white space, a
sign nor a digit, `parseInt(id)` is NaN.  When no row matches the identifier,
the store is left unchanged. -/
theorem C9_delete_reply (E : Engine) (s : Store) (id : String) :
    (deleteTodoById E s id).2.status = 200
    ∧ (deleteTodoById E s id).2.body
        = JsVal.obj [("id", JsVal.num (parseInt E id)), ("isDeleted", JsVal.bool true)]
    ∧ (∀ z : Int, id = toString z → -9007199254740992 ≤ z ∧ z ≤ 9007199254740992 →
        parseInt E id = JsNum.fin (z : ℚ))
    ∧ ((∀ c ∈ id.toList.head?, isStrWhiteSpaceChar c = false ∧ c ≠ '-' ∧ c ≠ '+'
          ∧ c.isDigit = false) →
        parseInt E id = JsNum.nan)
    ∧ ((∀ r ∈ s.rows, r.matches E (SqlVal.text id) = false) →
        (deleteTodoById E s id).1 = s) := by
  refine ⟨rfl, rfl, ?_, parseInt_nan E id, ?_⟩
  · intro z hz hb
    rw [hz, parseInt_toString_exact E z hb]
  · intro h
    unfold deleteTodoById dbRunDelete
    rw [bindParam_str]
    have : s.rows.filter (fun r => !r.matches E (SqlVal.text id)) = s.rows :=
      List.filter_eq_self.2 (fun r hr => by simp [h r hr])
    simp only [this]

/-- Counterexample to C10 as stated: with row 1 stored, DELETE /todos/1abc
replies `{id: 1, isDeleted: true}` (`parseInt` reads the leading digits) while
the statement selects no row (the text `1abc` is not a number), so row 1 is
still stored and a following GET /todos/1 responds 200. -/
theorem C10_counterexample :
    (deleteTodoById constEngine
        (Store.mk [Row.mk 1 (SqlVal.text "a") (SqlVal.integer 0) (SqlVal.integer 1)] 1) "1abc").2.body
      = JsVal.obj [("id", JsVal.ofInt 1), ("isDeleted", JsVal.bool true)]
    ∧ (deleteTodoById constEngine
        (Store.mk [Row.mk 1 (SqlVal.text "a") (SqlVal.integer 0) (SqlVal.integer 1)] 1) "1abc").1
      = Store.mk [Row.mk 1 (SqlVal.text "a") (SqlVal.integer 0) (SqlVal.integer 1)] 1
    ∧ (getTodoById constEngine
        (deleteTodoById constEngine
          (Store.mk [Row.mk 1 (SqlVal.text "a") (SqlVal.integer 0) (SqlVal.integer 1)] 1) "1abc").1
        "1").2.status = 200 :=
  ⟨rfl, by decide, by decide⟩

/-- C10 (amended). After the delete operation with path identifier `id`, no row
of the store matches `id` (a following get-one with the same identifier
responds 404), and the rows that do not match `id` are exactly the rows still
stored, unchanged.  When `id` is the decimal form of an integer `n` of
magnitude at most `2^53`, the reply is `{id: n, isDeleted: true}`, the store
contains no row with id `n`, and every row whose id differs from `n` is still
present. -/
theorem C10_delete_removes_matching_rows (E : Engine) (s : Store) (id : String) :
    (∀ r ∈ (deleteTodoById E s id).1.rows, r.matches E (SqlVal.text id) = false)
    ∧ (getTodoById E (deleteTodoById E s id).1 id).2.status = 404
    ∧ (deleteTodoById E s id).1.rows = s.rows.filter (fun r => !r.matches E (SqlVal.text id))
    ∧ (∀ z : Int, id = toString z → -9007199254740992 ≤ z ∧ z ≤ 9007199254740992 →
        (deleteTodoById E s id).2.body
            = JsVal.obj [("id", JsVal.ofInt z), ("isDeleted", JsVal.bool true)]
          ∧ (∀ r ∈ (deleteTodoById E s id).1.rows, r.id ≠ z)
          ∧ (∀ r ∈ s.rows, r.id ≠ z → r ∈ (deleteTodoById E s id).1.rows)) := by
  have hrows : (deleteTodoById E s id).1.rows
      = s.rows.filter (fun r => !r.matches E (SqlVal.text id)) := rfl
  have hnone : ∀ r ∈ (deleteTodoById E s id).1.rows, r.matches E (SqlVal.text id) = false := by
    intro r hr
    rw [hrows, List.mem_filter] at hr
    simpa using hr.2
  refine ⟨hnone, ?_, hrows, ?_⟩
  · have hg := (dbGet_eq_none E (deleteTodoById E s id).1 (SqlVal.text id)).2 hnone
    unfold getTodoById
    rw [bindParam_str, hg]
  · intro z hz hb
    have hrange : -MAX_ROWID - 1 ≤ z ∧ z ≤ MAX_ROWID := by
      unfold MAX_ROWID
      omega
    refine ⟨?_, ?_, ?_⟩
    · show JsVal.obj [("id", JsVal.num (parseInt E id)), ("isDeleted", JsVal.bool true)] = _
      rw [hz, parseInt_toString_exact E z hb]
      rfl
    · intro r hr hid
      have := hnone r hr
      rw [hz, (matches_toString E z r hrange).2 hid] at this
      exact absurd this (by decide)
    · intro r hr hid
      rw [hrows, List.mem_filter]
      refine ⟨hr, ?_⟩
      cases hm : r.matches E (SqlVal.text id) with
      | false => rfl
      | true =>
        rw [hz] at hm
        exact absurd ((matches_toString E z r hrange).1 hm) hid

/-! ## Inserting a row -/

theorem maxRowid_none (rows : List Row) (h : maxRowid rows = none) : rows = [] := by
  cases rows with
  | nil => rfl
  | cons r rs =>
    unfold maxRowid at h
    split at h <;> simp at h

theorem maxRowid_le (rows : List Row) : ∀ m, maxRowid rows = some m → ∀ r ∈ rows, r.id ≤ m := by
  induction rows with
  | nil => intro m h; simp [maxRowid] at h
  | cons a rs ih =>
    intro m h r hr
    unfold maxRowid at h
    split at h
    · rename_i hn
      have := maxRowid_none rs hn
      subst this
      simp only [Option.some.injEq] at h
      simp only [List.mem_singleton] at hr
      rw [hr, h]
    · rename_i m1 hm1
      simp only [Option.some.injEq] at h
      rcases List.mem_cons.1 hr with hr | hr
      · rw [hr, ← h]; exact le_max_left _ _
      · have := ih m1 hm1 r hr
        rw [← h]; exact le_trans this (le_max_right _ _)

theorem newRowid_ok (s : Store) (id : Int) (h : newRowid s = Except.ok id) :
    (s.seq : Int) < id ∧ 0 < id ∧ id ≤ MAX_ROWID ∧ ∀ r ∈ s.rows, r.id < id := by
  unfold newRowid at h
  split at h
  · rename_i hn
    have hrows := maxRowid_none s.rows hn
    split at h
    · simp at h
    · simp only [Except.ok.injEq] at h
      rw [hrows]
      refine ⟨by omega, by omega, by omega, by simp⟩
  · rename_i m hm
    split at h
    · simp at h
    · simp only [Except.ok.injEq] at h
      have hle := maxRowid_le s.rows m hm
      refine ⟨by omega, by omega, by omega, ?_⟩
      intro r hr
      have := hle r hr
      omega

theorem rowidOf_bind_ofInt (E : Engine) (z : Int) :
    rowidOf E (bindParam E (JsVal.ofInt z)) = some z := by
  show rowidOf E (if isInt32 (z : ℚ) then SqlVal.integer (z : ℚ).num
    else SqlVal.real (JsNum.fin (z : ℚ))) = some z
  split <;> simp [rowidOf, realRowid]

/-- What a successful insert did: the new row is appended with a fresh id above
the sequence counter and above every stored id, and holds the bound values
after column affinity. -/
theorem dbRunInsert_ok (E : Engine) (s s1 : Store) (todo completed userId : JsVal) (id : Int)
    (h : dbRunInsert E s todo completed userId = Except.ok (s1, id)) :
    s1 = Store.mk (s.rows ++ [Row.mk id (textAffinity E (bindParam E todo))
            (numericAffinity E (bindParam E completed))
            (numericAffinity E (bindParam E userId))])
          id.toNat
      ∧ (s.seq : Int) < id ∧ 0 < id ∧ id ≤ MAX_ROWID ∧ (∀ r ∈ s.rows, r.id < id)
      ∧ numericAffinity E (bindParam E userId) ≠ SqlVal.null := by
  unfold dbRunInsert at h
  split at h
  · simp at h
  · rename_i id1 hid
    simp only [] at h
    split at h
    · simp at h
    · split at h
      · simp at h
      · split at h
        · simp at h
        · rename_i hu
          simp only [Except.ok.injEq, Prod.mk.injEq] at h
          obtain ⟨h1, h2⟩ := h
          subst h2
          exact ⟨h1.symm, (newRowid_ok s id1 hid).1, (newRowid_ok s id1 hid).2.1,
            (newRowid_ok s id1 hid).2.2.1, (newRowid_ok s id1 hid).2.2.2, hu⟩

theorem dbGet_append_new (E : Engine) (rows : List Row) (seq : Nat) (r : Row)
    (hlt : ∀ a ∈ rows, a.id < r.id) :
    dbGet E (Store.mk (rows ++ [r]) seq) (bindParam E (JsVal.ofInt r.id)) = some r := by
  unfold dbGet
  rw [List.find?_append]
  have hnone : List.find? (Row.matches E (bindParam E (JsVal.ofInt r.id))) rows = none := by
    rw [List.find?_eq_none]
    intro a ha hm
    rw [matches_iff, rowidOf_bind_ofInt] at hm
    have := hlt a ha
    have := Option.some.inj hm
    omega
  rw [hnone]
  have hm : r.matches E (bindParam E (JsVal.ofInt r.id)) = true := by
    rw [matches_iff, rowidOf_bind_ofInt]
  simp [hm]


/-! ## The create operation -/

/-- What a create that answers 200 did. -/
theorem postTodosAdd_ok (E : Engine) (s : Store) (body : ReqBody)
    (h : (postTodosAdd E s body).2.status = 200) :
    ∃ r : Row,
      (postTodosAdd E s body).2.body = r.toJs
      ∧ (postTodosAdd E s body).1 = Store.mk (s.rows ++ [r]) r.id.toNat
      ∧ (s.seq : Int) < r.id ∧ 0 < r.id ∧ (∀ a ∈ s.rows, a.id < r.id)
      ∧ r.todo = textAffinity E (bindParam E (body.prop "todo"))
      ∧ r.completed = numericAffinity E
          (bindParam E (JsVal.bool (body.propOr "completed" (JsVal.bool false)).truthy))
      ∧ r.userId = numericAffinity E (bindParam E (body.propOr "userId" (JsVal.ofInt 1)))
      ∧ r.userId ≠ SqlVal.null
      ∧ (body.prop "todo").truthy = true
      ∧ (body.propOr "completed" (JsVal.bool false)).typeof = JsType.boolean
      ∧ (body.propOr "userId" (JsVal.ofInt 1)).typeof = JsType.number
      ∧ r.id ≤ MAX_ROWID := by
  unfold postTodosAdd at h ⊢
  simp only [] at h ⊢
  split at h
  · simp at h
  · rename_i hval
    rw [if_neg hval]
    simp only [Bool.or_eq_true, Bool.not_eq_true', decide_eq_true_eq, not_or, not_not,
      Bool.not_eq_false] at hval
    split at h
    · simp at h
    · rename_i s1 lastID hins
      obtain ⟨hs1, hseq, hpos, hmax, hlt, hu⟩ := dbRunInsert_ok E s s1 _ _ _ lastID hins
      simp only []
      refine ⟨Row.mk lastID _ _ _, ?_, hs1, hseq, hpos, hlt, rfl, rfl, rfl, hu,
        hval.1.1, hval.1.2, hval.2, hmax⟩
      rw [hs1]
      have := dbGet_append_new E s.rows lastID.toNat (Row.mk lastID
        (textAffinity E (bindParam E (body.prop "todo")))
        (numericAffinity E
          (bindParam E (JsVal.bool (body.propOr "completed" (JsVal.bool false)).truthy)))
        (numericAffinity E (bindParam E (body.propOr "userId" (JsVal.ofInt 1))))) hlt
      simp only [] at this
      rw [this]
      rfl

theorem postTodosAdd_status (E : Engine) (s : Store) (body : ReqBody) :
    (postTodosAdd E s body).2.status = 400 ∨ (postTodosAdd E s body).2.status = 500
      ∨ (postTodosAdd E s body).2.status = 200 := by
  unfold postTodosAdd
  simp only []
  split
  · exact Or.inl rfl
  · split
    · exact Or.inr (Or.inl rfl)
    · exact Or.inr (Or.inr rfl)

theorem bindParam_fin (E : Engine) (q : ℚ) :
    bindParam E (JsVal.num (JsNum.fin q))
      = if isInt32 q then SqlVal.integer q.num else SqlVal.real (JsNum.fin q) := rfl

theorem numericAffinity_real_fin (E : Engine) (q : ℚ) :
    numericAffinity E (SqlVal.real (JsNum.fin q))
      = if q.den = 1 ∧ -MAX_ROWID - 1 < q.num ∧ q.num < MAX_ROWID then SqlVal.integer q.num
        else SqlVal.real (JsNum.fin q) := rfl

theorem textAffinity_bind_text (E : Engine) (v : JsVal) (h : v.truthy = true) :
    ∃ t, textAffinity E (bindParam E v) = SqlVal.text t := by
  cases v with
  | undefined => simp [JsVal.truthy] at h
  | null => simp [JsVal.truthy] at h
  | bool b => exact ⟨_, rfl⟩
  | num x =>
    cases x with
    | fin q =>
      rw [bindParam_fin]
      by_cases h32 : isInt32 q = true
      · rw [if_pos h32]; exact ⟨_, rfl⟩
      · rw [if_neg h32]; exact ⟨_, rfl⟩
    | inf b => exact ⟨_, rfl⟩
    | nan => simp [JsVal.truthy] at h
  | str t => exact ⟨_, rfl⟩
  | arr items => exact ⟨_, rfl⟩
  | obj props => exact ⟨_, rfl⟩

theorem numericAffinity_bind_number (E : Engine) (v : JsVal) (ht : v.typeof = JsType.number)
    (hn : numericAffinity E (bindParam E v) ≠ SqlVal.null) :
    (numericAffinity E (bindParam E v)).toJs = v := by
  cases v with
  | num x =>
    cases x with
    | fin q =>
      rw [bindParam_fin]
      by_cases h32 : isInt32 q = true
      · rw [if_pos h32]
        simp only [isInt32, Bool.and_eq_true, decide_eq_true_eq] at h32
        simp only [numericAffinity, SqlVal.toJs, JsVal.ofInt]
        rw [Rat.coe_int_num_of_den_eq_one h32.1.1]
      · rw [if_neg h32]
        rw [numericAffinity_real_fin]
        by_cases hq : q.den = 1 ∧ -MAX_ROWID - 1 < q.num ∧ q.num < MAX_ROWID
        · rw [if_pos hq]
          simp only [SqlVal.toJs, JsVal.ofInt]
          rw [Rat.coe_int_num_of_den_eq_one hq.1]
        · rw [if_neg hq]
          rfl
    | inf b => rfl
    | nan => exact absurd rfl hn
  | undefined => simp [JsVal.typeof] at ht
  | null => simp [JsVal.typeof] at ht
  | bool b => simp [JsVal.typeof] at ht
  | str t => simp [JsVal.typeof] at ht
  | arr items => simp [JsVal.typeof] at ht
  | obj props => simp [JsVal.typeof] at ht

theorem typeof_boolean (v : JsVal) (h : v.typeof = JsType.boolean) : ∃ b, v = JsVal.bool b := by
  cases v <;> simp [JsVal.typeof] at h
  exact ⟨_, rfl⟩


/-- Counterexample to C2 as stated: on the empty table, POST /todos/add with
`{"todo":"buy milk"}` answers 200 with `completed: 0` (the stored integer), not
`completed: false`; and with `{"todo":5}` it answers 200 with the text
`todo: "5"`, not the submitted number 5. -/
theorem C2_counterexample :
    (postTodosAdd constEngine emptyStore
        (ReqBody.object [("todo", JsVal.str "buy milk")])).2.status = 200
    ∧ (postTodosAdd constEngine emptyStore (ReqBody.object [("todo", JsVal.str "buy milk")])).2.body
        = JsVal.obj [("id", JsVal.ofInt 1), ("todo", JsVal.str "buy milk"),
            ("completed", JsVal.ofInt 0), ("userId", JsVal.ofInt 1)]
    ∧ (postTodosAdd constEngine emptyStore (ReqBody.object [("todo", JsVal.str "buy milk")])).2.body
        ≠ JsVal.obj [("id", JsVal.ofInt 1), ("todo", JsVal.str "buy milk"),
            ("completed", JsVal.bool false), ("userId", JsVal.ofInt 1)]
    ∧ (postTodosAdd constEngine emptyStore (ReqBody.object [("todo", JsVal.ofInt 5)])).2.body
        = JsVal.obj [("id", JsVal.ofInt 1), ("todo", JsVal.str "5"),
            ("completed", JsVal.ofInt 0), ("userId", JsVal.ofInt 1)] := by
  refine ⟨by decide, rfl, ?_, rfl⟩
  have h : (postTodosAdd constEngine emptyStore
      (ReqBody.object [("todo", JsVal.str "buy milk")])).2.body
        = JsVal.obj [("id", JsVal.ofInt 1), ("todo", JsVal.str "buy milk"),
            ("completed", JsVal.ofInt 0), ("userId", JsVal.ofInt 1)] := rfl
  rw [h]
  simp [JsVal.ofInt]

/-- C2 (amended). A create that passes validation and whose store operations
succeed responds with status 200 and the stored row; the store afterwards is
the previous store plus exactly that row, whose `id` is a positive integer
that no stored row had.  The row's `todo` is the text form of the submitted
`todo` (the submitted value itself when it is a string), its `completed` is 1
when the submitted `completed` is `true` and 0 when it is `false` or omitted,
and its `userId` is the submitted `userId`, or 1 when it was omitted. -/
theorem C2_create_persists (E : Engine) (s : Store) (body : ReqBody)
    (hvalid : (postTodosAdd E s body).2.status ≠ 400)
    (hstore : (postTodosAdd E s body).2.status ≠ 500) :
    (postTodosAdd E s body).2.status = 200
    ∧ ∃ r : Row, (postTodosAdd E s body).2.body = r.toJs
      ∧ (postTodosAdd E s body).1.rows = s.rows ++ [r]
      ∧ 0 < r.id ∧ (∀ a ∈ s.rows, a.id ≠ r.id)
      ∧ r.todo = textAffinity E (bindParam E (body.prop "todo"))
      ∧ (∃ t, r.todo = SqlVal.text t)
      ∧ (∀ t, body.prop "todo" = JsVal.str t → r.todo.toJs = JsVal.str t)
      ∧ (∃ b, body.propOr "completed" (JsVal.bool false) = JsVal.bool b
          ∧ r.completed.toJs = JsVal.ofInt (if b then 1 else 0))
      ∧ r.userId.toJs = body.propOr "userId" (JsVal.ofInt 1) := by
  have h200 : (postTodosAdd E s body).2.status = 200 := by
    rcases postTodosAdd_status E s body with h | h | h
    · exact absurd h hvalid
    · exact absurd h hstore
    · exact h
  obtain ⟨r, hbody, hst, _, hpos, hlt, htodo, hcomp, huser, hunn, htr, htb, htn, _⟩ :=
    postTodosAdd_ok E s body h200
  refine ⟨h200, r, hbody, by rw [hst], hpos, ?_, htodo, ?_, ?_, ?_, ?_⟩
  · intro a ha
    exact ne_of_lt (hlt a ha)
  · rw [htodo]
    exact textAffinity_bind_text E _ htr
  · intro t ht
    rw [htodo, ht]
    rfl
  · obtain ⟨b, hb⟩ := typeof_boolean _ htb
    refine ⟨b, hb, ?_⟩
    rw [hcomp, hb]
    cases b <;> rfl
  · rw [huser] at hunn ⊢
    exact numericAffinity_bind_number E _ htn hunn

/-- Witness for C2: the body `{"todo":"buy milk"}` on the empty table is
neither rejected nor failed by the store, and the create answers 200. -/
theorem C2_create_persists_witness :
    (postTodosAdd constEngine emptyStore
        (ReqBody.object [("todo", JsVal.str "buy milk")])).2.status ≠ 400
    ∧ (postTodosAdd constEngine emptyStore
        (ReqBody.object [("todo", JsVal.str "buy milk")])).2.status ≠ 500
    ∧ (postTodosAdd constEngine emptyStore
        (ReqBody.object [("todo", JsVal.str "buy milk")])).2.status = 200 :=
  ⟨by decide, by decide,
    (C2_create_persists constEngine emptyStore
      (ReqBody.object [("todo", JsVal.str "buy milk")]) (by decide) (by decide)).1⟩

/-- C5. If create succeeds and returns item `r`, then get-one called right
afterwards with `r.id` (in decimal) as the path identifier responds with status
200 and an item equal to `r`. -/
theorem C5_create_then_get (E : Engine) (s : Store) (body : ReqBody)
    (h : (postTodosAdd E s body).2.status = 200) :
    ∃ r : Row, (postTodosAdd E s body).2.body = r.toJs
      ∧ (getTodoById E (postTodosAdd E s body).1 (toString r.id)).2.status = 200
      ∧ (getTodoById E (postTodosAdd E s body).1 (toString r.id)).2.body = r.toJs
      ∧ (getTodoById E (postTodosAdd E s body).1 (toString r.id)).2.body
          = (postTodosAdd E s body).2.body := by
  obtain ⟨r, hbody, hst, _, hpos, hlt, _, _, _, _, _, _, _, hmax⟩ := postTodosAdd_ok E s body h
  have hrange : -MAX_ROWID - 1 ≤ r.id ∧ r.id ≤ MAX_ROWID := by
    refine ⟨?_, hmax⟩
    unfold MAX_ROWID
    omega
  have hget : dbGet E (postTodosAdd E s body).1 (SqlVal.text (toString r.id)) = some r := by
    rw [hst]
    unfold dbGet
    rw [List.find?_append]
    have hnone : List.find? (Row.matches E (SqlVal.text (toString r.id))) s.rows = none := by
      rw [List.find?_eq_none]
      intro a ha hm
      have := (matches_toString E r.id a hrange).1 hm
      have := hlt a ha
      omega
    rw [hnone]
    simp [(matches_toString E r.id r hrange).2 rfl]
  refine ⟨r, hbody, ?_, ?_, ?_⟩
  · unfold getTodoById
    rw [bindParam_str, hget]
  · unfold getTodoById
    rw [bindParam_str, hget]
  · unfold getTodoById
    rw [bindParam_str, hget, hbody]

/-- Witness for C5: the create of `{"todo":"buy milk"}` on the empty table
answers 200, and the row is then read back under the identifier "1". -/
theorem C5_create_then_get_witness :
    (postTodosAdd constEngine emptyStore
        (ReqBody.object [("todo", JsVal.str "buy milk")])).2.status = 200
    ∧ ∃ r : Row, (postTodosAdd constEngine emptyStore
          (ReqBody.object [("todo", JsVal.str "buy milk")])).2.body = r.toJs
      ∧ (getTodoById constEngine (postTodosAdd constEngine emptyStore
          (ReqBody.object [("todo", JsVal.str "buy milk")])).1 (toString r.id)).2.status = 200
      ∧ (getTodoById constEngine (postTodosAdd constEngine emptyStore
          (ReqBody.object [("todo", JsVal.str "buy milk")])).1 (toString r.id)).2.body = r.toJs
      ∧ (getTodoById constEngine (postTodosAdd constEngine emptyStore
          (ReqBody.object [("todo", JsVal.str "buy milk")])).1 (toString r.id)).2.body
          = (postTodosAdd constEngine emptyStore
          (ReqBody.object [("todo", JsVal.str "buy milk")])).2.body :=
  ⟨by decide,
    C5_create_then_get constEngine emptyStore
      (ReqBody.object [("todo", JsVal.str "buy milk")]) (by decide)⟩


/-! ## Sequences of requests: ids only grow -/

theorem bodyId_toJs (r : Row) : bodyId r.toJs = some r.id := by
  simp [bodyId, Row.toJs, JsVal.ofInt, List.lookup]

theorem postTodosAdd_store_of_not_ok (E : Engine) (s : Store) (body : ReqBody)
    (h : (postTodosAdd E s body).2.status ≠ 200) : (postTodosAdd E s body).1 = s := by
  unfold postTodosAdd at h ⊢
  simp only [] at h ⊢
  split
  · rfl
  · rename_i hv
    rw [if_neg hv] at h
    split
    · rfl
    · rename_i s1 lastID hins
      rw [hins] at h
      exact absurd rfl h

theorem dbRunUpdate_seq (E : Engine) (s s1 : Store) (todo completed : Option JsVal) (id : JsVal)
    (h : dbRunUpdate E s todo completed id = Except.ok s1) : s1.seq = s.seq := by
  unfold dbRunUpdate at h
  simp only [] at h
  split at h
  · simp at h
  · split at h
    · simp at h
    · simp only [Except.ok.injEq] at h
      rw [← h]

theorem putTodoById_seq (E : Engine) (s : Store) (id : String) (body : ReqBody) :
    (putTodoById E s id body).1.seq = s.seq := by
  unfold putTodoById
  simp only []
  generalize (if (body.prop "todo").isUndefined then none else some (body.prop "todo")) = st
  generalize (if (body.prop "completed").isUndefined then none
    else some (JsVal.bool (body.prop "completed").truthy)) = sc
  by_cases h : (st.isNone && sc.isNone) = true
  · rw [if_pos h]
  · rw [if_neg h]
    cases hu : dbRunUpdate E s st sc (JsVal.str id) with
    | error e => rfl
    | ok s1 => exact dbRunUpdate_seq E s s1 _ _ _ hu

theorem getTodoById_store (E : Engine) (s : Store) (id : String) : (getTodoById E s id).1 = s := by
  unfold getTodoById
  cases dbGet E s (bindParam E (JsVal.str id)) <;> rfl

theorem handle_seq_le (E : Engine) (s : Store) (q : Request) : s.seq ≤ (handle E s q).1.seq := by
  cases q with
  | list => exact le_refl _
  | getOne id => rw [handle, getTodoById_store]
  | create body =>
    rw [handle]
    by_cases h : (postTodosAdd E s body).2.status = 200
    · obtain ⟨r, _, hst, hseq, _⟩ := postTodosAdd_ok E s body h
      rw [hst]
      show s.seq ≤ r.id.toNat
      omega
    · rw [postTodosAdd_store_of_not_ok E s body h]
  | update id body => rw [handle, putTodoById_seq]
  | delete id => exact le_refl _

theorem create_id_bounds (E : Engine) (s : Store) (body : ReqBody) (z : Int)
    (h : (postTodosAdd E s body).2.status = 200)
    (hz : bodyId (postTodosAdd E s body).2.body = some z) :
    (s.seq : Int) < z ∧ z ≤ ((postTodosAdd E s body).1.seq : Int) := by
  obtain ⟨r, hbody, hst, hseq, hpos, _⟩ := postTodosAdd_ok E s body h
  rw [hbody, bodyId_toJs] at hz
  have hrz : r.id = z := Option.some.inj hz
  rw [hst]
  show (s.seq : Int) < z ∧ z ≤ ((r.id.toNat : Nat) : Int)
  omega

theorem createdIds_gt (E : Engine) (reqs : List Request) :
    ∀ s : Store, ∀ z ∈ createdIds (serve E s reqs), (s.seq : Int) < z := by
  induction reqs with
  | nil => intro s z hz; simp [serve, createdIds] at hz
  | cons q qs ih =>
    intro s z hz
    have hmono : ((s.seq : Nat) : Int) ≤ (((handle E s q).1.seq : Nat) : Int) :=
      Int.ofNat_le.2 (handle_seq_le E s q)
    cases q with
    | create body =>
      simp only [serve, handle, createdIds] at hz hmono
      split at hz
      · rename_i h200
        split at hz
        · rename_i z1 hz1
          rcases List.mem_cons.1 hz with hz | hz
          · rw [hz]; exact (create_id_bounds E s body z1 h200 hz1).1
          · exact lt_of_le_of_lt hmono (ih _ z hz)
        · exact lt_of_le_of_lt hmono (ih _ z hz)
      · exact lt_of_le_of_lt hmono (ih _ z hz)
    | list =>
      simp only [serve, createdIds] at hz
      exact lt_of_le_of_lt hmono (ih _ z hz)
    | getOne id =>
      simp only [serve, createdIds] at hz
      exact lt_of_le_of_lt hmono (ih _ z hz)
    | update id body =>
      simp only [serve, createdIds] at hz
      exact lt_of_le_of_lt hmono (ih _ z hz)
    | delete id =>
      simp only [serve, createdIds] at hz
      exact lt_of_le_of_lt hmono (ih _ z hz)

theorem createdIds_increasing (E : Engine) (reqs : List Request) :
    ∀ s : Store, (createdIds (serve E s reqs)).Pairwise (fun a b => a < b) := by
  induction reqs with
  | nil => intro s; simp [serve, createdIds]
  | cons q qs ih =>
    intro s
    cases q with
    | create body =>
      simp only [serve, handle, createdIds]
      split
      · rename_i h200
        split
        · rename_i z1 hz1
          rw [List.pairwise_cons]
          refine ⟨?_, ih _⟩
          intro z hz
          exact lt_of_le_of_lt (create_id_bounds E s body z1 h200 hz1).2
            (createdIds_gt E qs _ z hz)
        · exact ih _
      · exact ih _
    | list => simp only [serve, createdIds]; exact ih _
    | getOne id => simp only [serve, createdIds]; exact ih _
    | update id body => simp only [serve, createdIds]; exact ih _
    | delete id => simp only [serve, createdIds]; exact ih _

theorem createdIds_mem_cons (x : Request × Response) (rest : List (Request × Response)) :
    ∀ z ∈ createdIds rest, z ∈ createdIds (x :: rest) := by
  intro z hz
  obtain ⟨q, r⟩ := x
  cases q with
  | create body =>
    simp only [createdIds]
    split
    · split
      · exact List.mem_cons_of_mem _ hz
      · exact hz
    · exact hz
  | list => simpa only [createdIds] using hz
  | getOne id => simpa only [createdIds] using hz
  | update id body => simpa only [createdIds] using hz
  | delete id => simpa only [createdIds] using hz

theorem createdIds_complete (E : Engine) (reqs : List Request) :
    ∀ s : Store, ∀ (b : ReqBody) (r : Response),
      (Request.create b, r) ∈ serve E s reqs → r.status = 200 →
      ∃ z, bodyId r.body = some z ∧ z ∈ createdIds (serve E s reqs) := by
  induction reqs with
  | nil => intro s b r h; simp [serve] at h
  | cons q qs ih =>
    intro s b r h h200
    rw [serve] at h ⊢
    rcases List.mem_cons.1 h with h | h
    · simp only [Prod.mk.injEq] at h
      obtain ⟨hq, hr⟩ := h
      subst hq
      rw [handle] at hr
      rw [hr] at h200
      obtain ⟨row, hbody, _⟩ := postTodosAdd_ok E s b h200
      refine ⟨row.id, by rw [hr, hbody, bodyId_toJs], ?_⟩
      simp only [handle, createdIds, h200, if_true, hbody, bodyId_toJs]
      exact List.mem_cons_self _ _
    · obtain ⟨z, hz, hmem⟩ := ih _ b r h h200
      exact ⟨z, hz, createdIds_mem_cons _ _ z hmem⟩


/-- C3. In every sequence of requests (list, get-one, create, update, delete)
served from the empty table, every successful create returns an `id` (each
200 response of a create carries one), and that id is strictly greater than
the id returned by every earlier successful create, whether or not the earlier
row was deleted in between: ids are unique and never reused. -/
theorem C3_created_ids_strictly_increase (E : Engine) (reqs : List Request) :
    (createdIds (serve E emptyStore reqs)).Pairwise (fun a b => a < b)
    ∧ (∀ (b : ReqBody) (r : Response),
        (Request.create b, r) ∈ serve E emptyStore reqs → r.status = 200 →
        ∃ z, bodyId r.body = some z ∧ z ∈ createdIds (serve E emptyStore reqs)) :=
  ⟨createdIds_increasing E reqs emptyStore, createdIds_complete E reqs emptyStore⟩

/-- Three requests on the empty table, a create, the delete of the created row
and another create: the two creates return the ids 1 and 2. -/
theorem createdIds_after_delete :
    createdIds (serve constEngine emptyStore
      [Request.create (ReqBody.object [("todo", JsVal.str "a")]), Request.delete "1",
        Request.create (ReqBody.object [("todo", JsVal.str "b")])]) = [1, 2] := by
  decide

/-! ## Listing -/

theorem dbAll_perm (s : Store) : (dbAll s).Perm s.rows :=
  List.perm_insertionSort _ _

theorem dbAll_descending (s : Store) (hwf : s.wf) :
    (dbAll s).Pairwise (fun a b => b.id < a.id) := by
  haveI : IsTotal Row (fun a b => b.id ≤ a.id) := ⟨fun a b => le_total b.id a.id⟩
  haveI : IsTrans Row (fun a b => b.id ≤ a.id) := ⟨fun _ _ _ h1 h2 => le_trans h2 h1⟩
  have hsorted : (dbAll s).Pairwise (fun a b => b.id ≤ a.id) :=
    List.sorted_insertionSort (fun a b : Row => b.id ≤ a.id) s.rows
  have hnodup : ((dbAll s).map Row.id).Nodup :=
    ((dbAll_perm s).map Row.id).nodup_iff.2 hwf
  have hne : (dbAll s).Pairwise (fun a b => a.id ≠ b.id) := by
    rw [List.Nodup, List.pairwise_map] at hnodup
    exact hnodup
  exact (hsorted.and hne).imp (fun h => lt_of_le_of_ne h.1 (Ne.symm h.2))

/-- C4. The list operation (GET /todos) answers 200 with an envelope
`{todos, total, skip, limit}` in which `todos` holds exactly the rows of the
store ordered by strictly descending `id`, `total` is the length of `todos`,
`skip` is 0 and `limit` equals `total`; the store is left unchanged. -/
theorem C4_list_envelope (s : Store) (hwf : s.wf) :
    ∃ todos : List Row,
      (getTodos s).2.status = 200
      ∧ (getTodos s).2.body = JsVal.obj [
          ("todos", JsVal.arr (todos.map Row.toJs)),
          ("total", JsVal.ofInt todos.length),
          ("skip", JsVal.ofInt 0),
          ("limit", JsVal.ofInt todos.length)]
      ∧ todos.Perm s.rows
      ∧ todos.Pairwise (fun a b => b.id < a.id)
      ∧ (getTodos s).1 = s :=
  ⟨dbAll s, rfl, rfl, dbAll_perm s, dbAll_descending s hwf, rfl⟩

/-- Witness for C4: a table holding rows 1 and 2 satisfies the primary key
constraint and is listed with row 2 first. -/
theorem C4_list_envelope_witness :
    (Store.mk [Row.mk 1 (SqlVal.text "a") (SqlVal.integer 0) (SqlVal.integer 1),
        Row.mk 2 (SqlVal.text "b") (SqlVal.integer 1) (SqlVal.integer 1)] 2).wf
    ∧ ∃ todos : List Row,
      (getTodos (Store.mk [Row.mk 1 (SqlVal.text "a") (SqlVal.integer 0) (SqlVal.integer 1),
        Row.mk 2 (SqlVal.text "b") (SqlVal.integer 1) (SqlVal.integer 1)] 2)).2.status = 200
      ∧ (getTodos (Store.mk [Row.mk 1 (SqlVal.text "a") (SqlVal.integer 0) (SqlVal.integer 1),
        Row.mk 2 (SqlVal.text "b") (SqlVal.integer 1) (SqlVal.integer 1)] 2)).2.body
        = JsVal.obj [
          ("todos", JsVal.arr (todos.map Row.toJs)),
          ("total", JsVal.ofInt todos.length),
          ("skip", JsVal.ofInt 0),
          ("limit", JsVal.ofInt todos.length)]
      ∧ todos.Perm [Row.mk 1 (SqlVal.text "a") (SqlVal.integer 0) (SqlVal.integer 1),
        Row.mk 2 (SqlVal.text "b") (SqlVal.integer 1) (SqlVal.integer 1)]
      ∧ todos.Pairwise (fun a b => b.id < a.id)
      ∧ (getTodos (Store.mk [Row.mk 1 (SqlVal.text "a") (SqlVal.integer 0) (SqlVal.integer 1),
        Row.mk 2 (SqlVal.text "b") (SqlVal.integer 1) (SqlVal.integer 1)] 2)).1
        = Store.mk [Row.mk 1 (SqlVal.text "a") (SqlVal.integer 0) (SqlVal.integer 1),
        Row.mk 2 (SqlVal.text "b") (SqlVal.integer 1) (SqlVal.integer 1)] 2 :=
  ⟨by decide,
    C4_list_envelope (Store.mk [Row.mk 1 (SqlVal.text "a") (SqlVal.integer 0) (SqlVal.integer 1),
        Row.mk 2 (SqlVal.text "b") (SqlVal.integer 1) (SqlVal.integer 1)] 2) (by decide)⟩

theorem dbAll_two_rows :
    dbAll (Store.mk [Row.mk 1 (SqlVal.text "a") (SqlVal.integer 0) (SqlVal.integer 1),
        Row.mk 2 (SqlVal.text "b") (SqlVal.integer 1) (SqlVal.integer 1)] 2)
      = [Row.mk 2 (SqlVal.text "b") (SqlVal.integer 1) (SqlVal.integer 1),
        Row.mk 1 (SqlVal.text "a") (SqlVal.integer 0) (SqlVal.integer 1)] := by
  decide


/-! ## Updating a row -/

/-- An update that selects the stored row `r0` and stores no NULL rewrites `r0`
and nothing else, and the row is read back under the same identifier. -/
theorem dbRunUpdate_ok (E : Engine) (s : Store) (todo completed : Option JsVal) (id : JsVal)
    (r0 : Row) (hwf : s.wf) (hr0 : r0 ∈ s.rows) (hm : r0.matches E (bindParam E id) = true)
    (ht : todo.map (fun v => textAffinity E (bindParam E v)) ≠ some SqlVal.null)
    (hc : completed.map (fun v => numericAffinity E (bindParam E v)) ≠ some SqlVal.null) :
    dbRunUpdate E s todo completed id
        = Except.ok (Store.mk (s.rows.map (fun r => if r.id = r0.id then
            Row.mk r0.id ((todo.map (fun v => textAffinity E (bindParam E v))).getD r0.todo)
              ((completed.map (fun v => numericAffinity E (bindParam E v))).getD r0.completed)
              r0.userId
            else r)) s.seq)
    ∧ dbGet E (Store.mk (s.rows.map (fun r => if r.id = r0.id then
            Row.mk r0.id ((todo.map (fun v => textAffinity E (bindParam E v))).getD r0.todo)
              ((completed.map (fun v => numericAffinity E (bindParam E v))).getD r0.completed)
              r0.userId
            else r)) s.seq) (bindParam E id)
        = some (Row.mk r0.id ((todo.map (fun v => textAffinity E (bindParam E v))).getD r0.todo)
              ((completed.map (fun v => numericAffinity E (bindParam E v))).getD r0.completed)
              r0.userId) := by
  have hp : rowidOf E (bindParam E id) = some r0.id := (matches_iff E _ _).1 hm
  have hsel : ∀ r ∈ s.rows, r.matches E (bindParam E id) = true ↔ r.id = r0.id := by
    intro r _
    rw [matches_iff, hp]
    constructor
    · intro h; exact (Option.some.inj h).symm
    · intro h; rw [h]
  constructor
  · unfold dbRunUpdate
    simp only []
    rw [if_neg (by simp [ht]), if_neg (by simp [hc])]
    congr 2
    apply List.map_congr_left
    intro r hr
    by_cases hid : r.id = r0.id
    · have hrr : r = r0 := wf_unique s hwf r r0 hr hr0 hid
      rw [if_pos ((hsel r hr).2 hid), if_pos hid, hrr]
    · have : ¬ r.matches E (bindParam E id) = true := fun h => hid ((hsel r hr).1 h)
      rw [if_neg this, if_neg hid]
  · apply dbGet_of_wf
    · show ((s.rows.map _).map Row.id).Nodup
      rw [List.map_map]
      have : (Row.id ∘ fun r => if r.id = r0.id then
            Row.mk r0.id ((todo.map (fun v => textAffinity E (bindParam E v))).getD r0.todo)
              ((completed.map (fun v => numericAffinity E (bindParam E v))).getD r0.completed)
              r0.userId
            else r) = Row.id := by
        funext r
        simp only [Function.comp]
        split
        · rename_i h; exact h.symm
        · rfl
      rw [this]
      exact hwf
    · show _ ∈ s.rows.map _
      rw [List.mem_map]
      exact ⟨r0, hr0, by simp⟩
    · rw [matches_iff]
      exact hp

/-- Counterexample to C6 as stated: with the row
`{id: 1, todo: "buy milk", completed: 0, userId: 1}` stored, PUT /todos/1 with
`{"completed": true}` answers 200 with `completed: 1`, the stored integer, and
not with `completed: true`. -/
theorem C6_counterexample :
    (putTodoById constEngine
        (Store.mk [Row.mk 1 (SqlVal.text "buy milk") (SqlVal.integer 0) (SqlVal.integer 1)] 1)
        "1" (ReqBody.object [("completed", JsVal.bool true)])).2.status = 200
    ∧ (putTodoById constEngine
        (Store.mk [Row.mk 1 (SqlVal.text "buy milk") (SqlVal.integer 0) (SqlVal.integer 1)] 1)
        "1" (ReqBody.object [("completed", JsVal.bool true)])).2.body
      = JsVal.obj [("id", JsVal.ofInt 1), ("todo", JsVal.str "buy milk"),
          ("completed", JsVal.ofInt 1), ("userId", JsVal.ofInt 1)]
    ∧ (putTodoById constEngine
        (Store.mk [Row.mk 1 (SqlVal.text "buy milk") (SqlVal.integer 0) (SqlVal.integer 1)] 1)
        "1" (ReqBody.object [("completed", JsVal.bool true)])).2.body
      ≠ JsVal.obj [("id", JsVal.ofInt 1), ("todo", JsVal.str "buy milk"),
          ("completed", JsVal.bool true), ("userId", JsVal.ofInt 1)] := by
  refine ⟨by decide, rfl, ?_⟩
  have h : (putTodoById constEngine
        (Store.mk [Row.mk 1 (SqlVal.text "buy milk") (SqlVal.integer 0) (SqlVal.integer 1)] 1)
        "1" (ReqBody.object [("completed", JsVal.bool true)])).2.body
      = JsVal.obj [("id", JsVal.ofInt 1), ("todo", JsVal.str "buy milk"),
          ("completed", JsVal.ofInt 1), ("userId", JsVal.ofInt 1)] := rfl
  rw [h]
  simp [JsVal.ofInt]


theorem textAffinity_ne_null (E : Engine) (v : SqlVal) (h : v ≠ SqlVal.null) :
    textAffinity E v ≠ SqlVal.null := by
  cases v <;> simp_all [textAffinity]

/-- C6 (amended). For a path identifier that selects the stored row `r0`:
an update whose body contains `completed` but not `todo` answers 200 with `r0`
in which only `completed` is replaced, by 1 when the supplied value is truthy
and by 0 otherwise; an update whose body contains `todo` (not `null`) but not
`completed` answers 200 with `r0` in which only `todo` is replaced, by the text
form of the supplied value (the value itself when it is a string).  In both
cases the store afterwards is the store before with that one row replaced:
`id`, `userId`, the other column and every other row are unchanged.  An update
that supplies only `todo: null` answers 500 and changes nothing. -/
theorem C6_update_changes_only_supplied_field (E : Engine) (s : Store) (id : String)
    (body : ReqBody) (r0 : Row) (hwf : s.wf) (hr0 : r0 ∈ s.rows)
    (hm : r0.matches E (SqlVal.text id) = true) :
    ((body.prop "todo").isUndefined = true → (body.prop "completed").isUndefined = false →
      (putTodoById E s id body).2.status = 200
      ∧ (putTodoById E s id body).2.body
          = (Row.mk r0.id r0.todo
              (SqlVal.integer (if (body.prop "completed").truthy then 1 else 0)) r0.userId).toJs
      ∧ (putTodoById E s id body).1
          = Store.mk (s.rows.map (fun r => if r.id = r0.id then
              Row.mk r0.id r0.todo
                (SqlVal.integer (if (body.prop "completed").truthy then 1 else 0)) r0.userId
              else r)) s.seq)
    ∧ ((body.prop "todo").isUndefined = false → (body.prop "completed").isUndefined = true →
        bindParam E (body.prop "todo") ≠ SqlVal.null →
      (putTodoById E s id body).2.status = 200
      ∧ (putTodoById E s id body).2.body
          = (Row.mk r0.id (textAffinity E (bindParam E (body.prop "todo")))
              r0.completed r0.userId).toJs
      ∧ (putTodoById E s id body).1
          = Store.mk (s.rows.map (fun r => if r.id = r0.id then
              Row.mk r0.id (textAffinity E (bindParam E (body.prop "todo")))
                r0.completed r0.userId
              else r)) s.seq
      ∧ (∀ t, body.prop "todo" = JsVal.str t →
          textAffinity E (bindParam E (body.prop "todo")) = SqlVal.text t))
    ∧ ((body.prop "todo").isUndefined = false → (body.prop "completed").isUndefined = true →
        bindParam E (body.prop "todo") = SqlVal.null →
      (putTodoById E s id body).2.status = 500 ∧ (putTodoById E s id body).1 = s) := by
  refine ⟨?_, ?_, ?_⟩
  · intro h1 h2
    have hc : (some (JsVal.bool (body.prop "completed").truthy)).map
        (fun v => numericAffinity E (bindParam E v)) ≠ some SqlVal.null := by
      cases (body.prop "completed").truthy <;> simp [bindParam, numericAffinity]
    obtain ⟨hup, hget⟩ := dbRunUpdate_ok E s none
      (some (JsVal.bool (body.prop "completed").truthy)) (JsVal.str id) r0 hwf hr0 hm
      (by simp) hc
    have hval : numericAffinity E (bindParam E (JsVal.bool (body.prop "completed").truthy))
        = SqlVal.integer (if (body.prop "completed").truthy then 1 else 0) := by
      cases (body.prop "completed").truthy <;> rfl
    simp only [Option.map_none', Option.map_some', Option.getD_none, Option.getD_some,
      hval] at hup hget
    unfold putTodoById
    simp only [h1, h2, if_true, Bool.false_eq_true, if_false, Option.isNone_none,
      Option.isNone_some, Bool.and_false, hup, hget]
    exact ⟨trivial, rfl, trivial⟩
  · intro h1 h2 hnn
    have ht : (some (body.prop "todo")).map
        (fun v => textAffinity E (bindParam E v)) ≠ some SqlVal.null := by
      simp only [Option.map_some', ne_eq, Option.some.injEq]
      exact textAffinity_ne_null E _ hnn
    obtain ⟨hup, hget⟩ := dbRunUpdate_ok E s (some (body.prop "todo")) none
      (JsVal.str id) r0 hwf hr0 hm ht (by simp)
    simp only [Option.map_none', Option.map_some', Option.getD_none, Option.getD_some]
      at hup hget
    refine ⟨?_, ?_, ?_, ?_⟩
    · unfold putTodoById
      simp only [h1, h2, if_true, Bool.false_eq_true, if_false, Option.isNone_none,
        Option.isNone_some, Bool.false_and, hup, hget]
    · unfold putTodoById
      simp only [h1, h2, if_true, Bool.false_eq_true, if_false, Option.isNone_none,
        Option.isNone_some, Bool.false_and, hup, hget]
      rfl
    · unfold putTodoById
      simp only [h1, h2, if_true, Bool.false_eq_true, if_false, Option.isNone_none,
        Option.isNone_some, Bool.false_and, hup, hget]
    · intro t ht
      rw [ht]
      rfl
  · intro h1 h2 hnull
    have hany : s.rows.any (Row.matches E (bindParam E (JsVal.str id))) = true := by
      rw [List.any_eq_true]
      exact ⟨r0, hr0, hm⟩
    have hup : dbRunUpdate E s (some (body.prop "todo")) none (JsVal.str id)
        = Except.error (DbError.notNull "todo") := by
      unfold dbRunUpdate
      simp only [hany, Option.map_some', hnull, textAffinity, decide_True, Bool.and_self,
        if_true]
    unfold putTodoById
    simp only [h1, h2, if_true, Bool.false_eq_true, if_false, Option.isNone_none,
      Option.isNone_some, Bool.false_and, hup]
    exact ⟨trivial, trivial⟩

/-- Witness for C6: the table with the single row 1, the identifier "1" and the
body `{"completed": true}`. -/
theorem C6_update_changes_only_supplied_field_witness :
    (Store.mk [Row.mk 1 (SqlVal.text "buy milk") (SqlVal.integer 0) (SqlVal.integer 1)] 1).wf
    ∧ (Row.mk 1 (SqlVal.text "buy milk") (SqlVal.integer 0) (SqlVal.integer 1)).matches
        constEngine (SqlVal.text "1") = true
    ∧ (putTodoById constEngine
        (Store.mk [Row.mk 1 (SqlVal.text "buy milk") (SqlVal.integer 0) (SqlVal.integer 1)] 1)
        "1" (ReqBody.object [("completed", JsVal.bool true)])).1
      = Store.mk [Row.mk 1 (SqlVal.text "buy milk") (SqlVal.integer 1) (SqlVal.integer 1)] 1 :=
  ⟨by decide, by decide,
    ((C6_update_changes_only_supplied_field constEngine
      (Store.mk [Row.mk 1 (SqlVal.text "buy milk") (SqlVal.integer 0) (SqlVal.integer 1)] 1)
      "1" (ReqBody.object [("completed", JsVal.bool true)])
      (Row.mk 1 (SqlVal.text "buy milk") (SqlVal.integer 0) (SqlVal.integer 1))
      (by decide) (by decide) (by decide)).1 (by decide) (by decide)).2.2⟩


/-! ## The primary key is an invariant -/

theorem wf_emptyStore : emptyStore.wf := by
  decide

theorem postTodosAdd_wf (E : Engine) (s : Store) (body : ReqBody) (hwf : s.wf) :
    (postTodosAdd E s body).1.wf := by
  by_cases h : (postTodosAdd E s body).2.status = 200
  · obtain ⟨r, _, hst, _, _, hlt, _⟩ := postTodosAdd_ok E s body h
    rw [hst]
    show ((s.rows ++ [r]).map Row.id).Nodup
    rw [List.map_append, List.nodup_append]
    refine ⟨hwf, by simp, ?_⟩
    intro a ha hb
    simp only [List.map_cons, List.map_nil, List.mem_singleton] at hb
    obtain ⟨x, hx, hxa⟩ := List.mem_map.1 ha
    have := hlt x hx
    omega
  · rw [postTodosAdd_store_of_not_ok E s body h]
    exact hwf

theorem dbRunUpdate_ids (E : Engine) (s s1 : Store) (todo completed : Option JsVal) (id : JsVal)
    (h : dbRunUpdate E s todo completed id = Except.ok s1) :
    s1.rows.map Row.id = s.rows.map Row.id := by
  unfold dbRunUpdate at h
  simp only [] at h
  split at h
  · simp at h
  · split at h
    · simp at h
    · simp only [Except.ok.injEq] at h
      rw [← h]
      simp only [List.map_map]
      apply List.map_congr_left
      intro r _
      simp only [Function.comp]
      split <;> rfl

theorem putTodoById_wf (E : Engine) (s : Store) (id : String) (body : ReqBody) (hwf : s.wf) :
    (putTodoById E s id body).1.wf := by
  unfold putTodoById
  simp only []
  generalize (if (body.prop "todo").isUndefined then none else some (body.prop "todo")) = st
  generalize (if (body.prop "completed").isUndefined then none
    else some (JsVal.bool (body.prop "completed").truthy)) = sc
  by_cases h : (st.isNone && sc.isNone) = true
  · rw [if_pos h]; exact hwf
  · rw [if_neg h]
    cases hu : dbRunUpdate E s st sc (JsVal.str id) with
    | error e => exact hwf
    | ok s1 =>
      show (s1.rows.map Row.id).Nodup
      rw [dbRunUpdate_ids E s s1 _ _ _ hu]
      exact hwf

theorem deleteTodoById_wf (E : Engine) (s : Store) (id : String) (hwf : s.wf) :
    (deleteTodoById E s id).1.wf := by
  show ((s.rows.filter _).map Row.id).Nodup
  exact List.Nodup.sublist (List.Sublist.map _ (List.filter_sublist _)) hwf

/-- Every handler keeps the ids of the table pairwise distinct. -/
theorem handle_wf (E : Engine) (s : Store) (q : Request) (hwf : s.wf) : (handle E s q).1.wf := by
  cases q with
  | list => exact hwf
  | getOne id => rw [handle, getTodoById_store]; exact hwf
  | create body => exact postTodosAdd_wf E s body hwf
  | update id body => exact putTodoById_wf E s id body hwf
  | delete id => exact deleteTodoById_wf E s id hwf

/-- Every table reached from the empty table by requests satisfies the primary
key constraint. -/
theorem finalStore_wf (E : Engine) (reqs : List Request) :
    ∀ s : Store, s.wf → (finalStore E s reqs).wf := by
  induction reqs with
  | nil => intro s h; exact h
  | cons q qs ih => intro s h; exact ih _ (handle_wf E s q h)


end TodoApi
